import Mathlib

/-!
Event dispatch and event handlers of the BLE HCI layer (`hci/handler.go`).

A shallow embedding of `src/hci/handler.go`.

* A method of the Go source becomes a Lean function from the receiver's state
  (and the raw bytes it is given) to an `Exec`: the state it leaves, the
  actions it performed on its collaborators in program order, and the run-time
  panic it raised, if any.
* Go maps are functions into `Option` (`none`: key absent).  A map is taken
  to be allocated.
* Channels are modelled sequentially: a send that is executed is recorded on
  the channel (whether and when a receiver takes the value is outside a
  sequential model); sending on or closing a closed channel panics, as in Go.
* What lives outside `handler.go` (the event decoders of package `evt`, the
  connection objects of package `l2cap`, the logger, `hci.Send`) is either a
  parameter of the handler or an `Action` recorded in the trace.
* The Command Sender's side of the registry of pending commands (registering
  a command, taking its result) is not in `handler.go`; it is modelled from
  the specification, in `hci.register` and `hci.takeResult`.
-/

namespace Ble

/-! ## Data model -/

/-- A Go `byte`. -/
abbrev Byte := Fin 256

/-- The run-time panics the code of `handler.go` can raise. -/
inductive Panic where
  | indexOutOfRange
  | nilDereference
  | sendOnClosedChannel
  | closeOfClosedChannel
  deriving DecidableEq, Repr

/-- A value of the Go interface type `Handler`: the nil interface, or a handler
(identified by a number; its body is not part of `handler.go`). -/
inductive Handler where
  | nil
  | func (id : Nat)
  deriving DecidableEq, Repr

/-- The fields of `evt.CommandCompleteEvent` that `handler.go` reads. -/
structure CommandCompleteEvent where
  NumHCICommandPackets : Nat
  CommandOpcode : Nat
  ReturnParameters : List Byte
  deriving DecidableEq, Repr

/-- The fields of `evt.CommandStatusEvent` that `handler.go` reads. -/
structure CommandStatusEvent where
  NumHCICommandPackets : Nat
  CommandOpcode : Nat
  deriving DecidableEq, Repr

/-- The field of `evt.LEConnectionCompleteEvent` that `handler.go` reads. -/
structure LEConnectionCompleteEvent where
  ConnectionHandle : Nat
  deriving DecidableEq, Repr

/-- The record `evt.LEConnectionUpdateCompleteEvent`; `handler.go` reads no field of it. -/
structure LEConnectionUpdateCompleteEvent where
  deriving DecidableEq, Repr

/-- The field of `evt.DisconnectionCompleteEvent` that `handler.go` reads. -/
structure DisconnectionCompleteEvent where
  ConnectionHandle : Nat
  deriving DecidableEq, Repr

/-- The fields of `evt.NumberOfCompletedPacketsEvent` that `handler.go` reads. -/
structure NumberOfCompletedPacketsEvent where
  NumberOfHandles : Nat
  ConnectionHandle : List Nat
  HCNumOfCompletedPackets : List Nat
  deriving DecidableEq, Repr

/-- The field of `evt.LELongTermKeyRequestEvent` that `handler.go` reads. -/
structure LELongTermKeyRequestEvent where
  ConnectionHandle : Nat
  deriving DecidableEq, Repr

/-- The fields of `evt.LEAdvertisingReportEvent` that `handler.go` reads
(`Address` holds values of type `[6]byte`). -/
structure LEAdvertisingReportEvent where
  NumReports : Nat
  EventType : List Nat
  AddressType : List Nat
  Address : List (Fin 6 → Byte)
  RSSI : List Int
  Data : List (List Byte)

/-- A connection object made by `l2cap.NewConn`: a pointer (its identity `id`)
to a connection built from the connection-complete event `param`. -/
structure Conn where
  id : Nat
  param : LEConnectionCompleteEvent
  deriving DecidableEq, Repr

/-- The commands `handler.go` sends. -/
inductive Command where
  | LELongTermKeyRequestNegativeReply (ConnectionHandle : Nat)
  deriving DecidableEq, Repr

/-- One call of the logger, by call site, with the arguments of the format string. -/
inductive LogEntry where
  /-- Call `log.Warnf("hci: corrupt event packet: [ % X ]", b)`. -/
  | corruptPacket (b : List Byte)
  /-- Call `log.Errorf("hci: unsupported event packet: [ % X ]", b)`. -/
  | unsupportedPacket (b : List Byte)
  /-- Call `log.Errorf("event: can't find the cmd for CommandCompleteEP: %v", e)`. -/
  | cantFindCmdComplete (e : CommandCompleteEvent)
  /-- Call `log.Errorf("event: can't find the cmd for CommandStatusEP: %v", e)`. -/
  | cantFindCmdStatus (e : CommandStatusEvent)
  /-- Call `log.Printf("Unsupported LE event: [ % X ]", b)`. -/
  | unsupportedLE (b : List Byte)
  /-- Call `log.Errorf("conns: disconnecting an invalid handle %04X", e.ConnectionHandle)`. -/
  | invalidHandle (ConnectionHandle : Nat)
  /-- Call `log.Printf("%d, %d, %s, %d, [% X]", ...)` of `handleLEAdvertisingReport`. -/
  | advertisingReport (EventType AddressType : Nat) (Address : String) (RSSI : Int)
      (Data : List Byte)
  deriving DecidableEq, Repr

/-- What a method of `handler.go` does to its collaborators, in program order. -/
inductive Action where
  /-- A call of the logger. -/
  | log (e : LogEntry)
  /-- Statement `go f.Handle(payload)`: handler `f` is started on `payload`. -/
  | go (f : Nat) (payload : List Byte)
  /-- Statement `f.Handle(payload)`: handler `f` is called on `payload`. -/
  | handle (f : Nat) (payload : List Byte)
  /-- Statement `c.HandlePacket(a)`. -/
  | handlePacket (c : Conn) (a : List Byte)
  /-- Statement `c.Disconnect()`. -/
  | disconnect (c : Conn)
  /-- Statement `c.TxBuffers().Free()`. -/
  | txFree (c : Conn)
  /-- Statement `h.Send(c, r)`; `r = none` is the nil result receiver. -/
  | send (c : Command) (r : Option Nat)
  deriving DecidableEq, Repr

/-- Whether an action is the corrupt-packet warning of `dispatch`. -/
def Action.isCorruptWarning : Action → Bool
  | Action.log (LogEntry.corruptPacket _) => true
  | _ => false

/-- Whether an action is the unsupported-event-packet entry of `dispatch`. -/
def Action.isUnsupportedNotice : Action → Bool
  | Action.log (LogEntry.unsupportedPacket _) => true
  | _ => false

/-- Whether an action invokes a handler (`go f.Handle(..)` or `f.Handle(..)`). -/
def Action.isInvocation : Action → Bool
  | Action.go _ _ => true
  | Action.handle _ _ => true
  | _ => false

/-- The outcome of running a method: the state it leaves, the actions it
performed, and the panic that ended it (`none`: it returned). -/
structure Exec (σ : Type) where
  state : σ
  trace : List Action
  fault : Option Panic

/-- The Go struct `dispatcher` (the mutex is not modelled: one method runs at a time). -/
structure dispatcher where
  handlers : Int → Option Handler

/-- A channel of type `chan []byte`: the values sent on it so far, and whether
it has been closed. -/
structure Chan where
  sent : List (List Byte)
  closed : Bool
  deriving DecidableEq, Repr

/-- A pending command (`pkt`); `done` is a reference to its completion channel. -/
structure pkt where
  done : Nat
  deriving DecidableEq, Repr

/-- The fields of the Go struct `hci` that `handler.go` uses, with the heap of
completion channels (`chans`) and the allocation counter of connection
objects (`nextConn`). -/
structure hci where
  subevtHandlers : dispatcher
  chCmdBufs : List (List Byte)
  sentCmds : Int → Option pkt
  conns : Nat → Option Conn
  chConn : List Conn
  chans : Nat → Chan
  nextConn : Nat

/-- Map assignment `m[k] = v`. -/
def mapSet {κ α : Type} [DecidableEq κ] (m : κ → Option α) (k : κ) (v : α) : κ → Option α :=
  fun k' => if k' = k then some v else m k'

/-- Map deletion `delete(m, k)`. -/
def mapDelete {κ α : Type} [DecidableEq κ] (m : κ → Option α) (k : κ) : κ → Option α :=
  fun k' => if k' = k then none else m k'

/-- Replace the state of the channel `ch` in the heap of channels. -/
def chanSet (m : Nat → Chan) (ch : Nat) (v : Chan) : Nat → Chan :=
  fun k => if k = ch then v else m k

/-- Expression `make([]byte, 64)`. -/
def make64 : List Byte := List.replicate 64 0

/-! ## The dispatcher -/

/-- Method `dispatcher.Handler`: `return d.handlers[c]` (nil for an absent key). -/
def dispatcher.Handler (d : dispatcher) (c : Int) : Ble.Handler :=
  match d.handlers c with
  | some f => f
  | none => Ble.Handler.nil

/-- Method `dispatcher.SetHandler`: `old := d.handlers[c]; d.handlers[c] = f; return old`.
Returns the dispatcher after the call and the returned value. -/
def dispatcher.SetHandler (d : dispatcher) (c : Int) (f : Ble.Handler) :
    dispatcher × Ble.Handler :=
  let old := d.Handler c
  (⟨mapSet d.handlers c f⟩, old)

/-- Method `dispatcher.dispatch`. -/
def dispatcher.dispatch (d : dispatcher) (b : List Byte) : Exec dispatcher :=
  match b with
  -- `int(b[0])` on an empty slice
  | [] => ⟨d, [], some Panic.indexOutOfRange⟩
  -- `int(b[1])` on a slice of length 1
  | [_] => ⟨d, [], some Panic.indexOutOfRange⟩
  | c :: l :: payload =>
    -- `code, plen := int(b[0]), int(b[1])`; `payload` is `b[2:]`
    let code : Int := (c.val : Int)
    let plen : Nat := l.val
    -- `if plen != len(b[2:]) { log.Warnf(...) }`
    let warn : List Action :=
      if plen ≠ payload.length then [Action.log (LogEntry.corruptPacket b)] else []
    -- `if f, found := d.handlers[code]; found { go f.Handle(b[2:]); return }`
    match d.handlers code with
    | some (Ble.Handler.func f) => ⟨d, warn ++ [Action.go f payload], none⟩
    | some Ble.Handler.nil => ⟨d, warn, some Panic.nilDereference⟩
    -- `log.Errorf("hci: unsupported event packet: [ % X ]", b)`
    | none => ⟨d, warn ++ [Action.log (LogEntry.unsupportedPacket b)], none⟩

/-! ## The handlers of `hci` -/

/-- The loop `for i := 0; i < n; i++ { h.chCmdBufs <- make([]byte, 64) }`. -/
def hci.replenish : Nat → hci → hci
  | 0, h => h
  | n + 1, h => hci.replenish n { h with chCmdBufs := h.chCmdBufs ++ [make64] }

/-- Method `hci.handleACLData`; `Handle` is the accessor `l2cap.Packet(b).Handle()`. -/
def hci.handleACLData (Handle : List Byte → Nat) (h : hci) (b : List Byte) : Exec hci :=
  -- `c, ok := h.conns[a.Handle()]`
  match h.conns (Handle b) with
  -- `if !ok { return }`
  | none => ⟨h, [], none⟩
  -- `c.HandlePacket(a)`
  | some c => ⟨h, [Action.handlePacket c b], none⟩

/-- Method `hci.handleCommandComplete`; `Unmarshal` is the decoder
`(*evt.CommandCompleteEvent).Unmarshal` (`none`: it returned an error). -/
def hci.handleCommandComplete (Unmarshal : List Byte → Option CommandCompleteEvent)
    (h : hci) (b : List Byte) : Exec hci :=
  match Unmarshal b with
  -- `if err := e.Unmarshal(b); err != nil { return }`
  | none => ⟨h, [], none⟩
  | some e =>
    -- `for i := 0; i < int(e.NumHCICommandPackets); i++ { h.chCmdBufs <- make([]byte, 64) }`
    let h1 := hci.replenish e.NumHCICommandPackets h
    -- `if e.CommandOpcode == 0x0000 { return }`
    if e.CommandOpcode = 0x0000 then ⟨h1, [], none⟩
    else
      -- `p, found := h.sentCmds[int(e.CommandOpcode)]`
      match h1.sentCmds (e.CommandOpcode : Int) with
      -- `if !found { log.Errorf(...); return }`
      | none => ⟨h1, [Action.log (LogEntry.cantFindCmdComplete e)], none⟩
      -- `p.done <- e.ReturnParameters`
      | some p =>
        if (h1.chans p.done).closed then ⟨h1, [], some Panic.sendOnClosedChannel⟩
        else
          let ch : Chan := ⟨(h1.chans p.done).sent ++ [e.ReturnParameters], false⟩
          ⟨{ h1 with chans := chanSet h1.chans p.done ch }, [], none⟩

/-- Method `hci.handleCommandStatus`; `Unmarshal` is the decoder
`(*evt.CommandStatusEvent).Unmarshal` (`none`: it returned an error). -/
def hci.handleCommandStatus (Unmarshal : List Byte → Option CommandStatusEvent)
    (h : hci) (b : List Byte) : Exec hci :=
  match Unmarshal b with
  -- `if err := e.Unmarshal(b); err != nil { return }`
  | none => ⟨h, [], none⟩
  | some e =>
    -- `for i := 0; i < int(e.NumHCICommandPackets); i++ { h.chCmdBufs <- make([]byte, 64) }`
    let h1 := hci.replenish e.NumHCICommandPackets h
    -- `p, found := h.sentCmds[int(e.CommandOpcode)]`
    match h1.sentCmds (e.CommandOpcode : Int) with
    -- `if !found { log.Errorf(...); return }`
    | none => ⟨h1, [Action.log (LogEntry.cantFindCmdStatus e)], none⟩
    -- `close(p.done)`
    | some p =>
      if (h1.chans p.done).closed then ⟨h1, [], some Panic.closeOfClosedChannel⟩
      else
        let ch : Chan := ⟨(h1.chans p.done).sent, true⟩
        ⟨{ h1 with chans := chanSet h1.chans p.done ch }, [], none⟩

/-- Method `hci.handleLEMeta`. -/
def hci.handleLEMeta (h : hci) (b : List Byte) : Exec hci :=
  match b with
  -- `code := int(b[0])` on an empty slice
  | [] => ⟨h, [], some Panic.indexOutOfRange⟩
  | c :: _ =>
    -- `if f := h.subevtHandlers.Handler(code); f != nil { f.Handle(b); return }`
    match h.subevtHandlers.Handler (c.val : Int) with
    | Ble.Handler.func f => ⟨h, [Action.handle f b], none⟩
    -- `log.Printf("Unsupported LE event: [ % X ]", b)`
    | Ble.Handler.nil => ⟨h, [Action.log (LogEntry.unsupportedLE b)], none⟩

/-- Method `hci.handleLEConnectionComplete`; `Unmarshal` is the decoder
`(*evt.LEConnectionCompleteEvent).Unmarshal` (`none`: it returned an error). -/
def hci.handleLEConnectionComplete
    (Unmarshal : List Byte → Option LEConnectionCompleteEvent)
    (h : hci) (b : List Byte) : Exec hci :=
  match Unmarshal b with
  -- `if err := e.Unmarshal(b); err != nil { return }`
  | none => ⟨h, [], none⟩
  | some e =>
    -- `c := l2cap.NewConn(h, h.dev, buffer.NewClient(h.pool), h.addr, e)`
    let c : Conn := ⟨h.nextConn, e⟩
    -- `h.conns[e.ConnectionHandle] = c` and `h.chConn <- c`
    ⟨{ h with nextConn := h.nextConn + 1,
              conns := mapSet h.conns e.ConnectionHandle c,
              chConn := h.chConn ++ [c] }, [], none⟩

/-- Method `hci.handleLEConnectionUpdateComplete`; `Unmarshal` is the decoder
`(*evt.LEConnectionUpdateCompleteEvent).Unmarshal` (`none`: it returned an error). -/
def hci.handleLEConnectionUpdateComplete
    (Unmarshal : List Byte → Option LEConnectionUpdateCompleteEvent)
    (h : hci) (b : List Byte) : Exec hci :=
  match Unmarshal b with
  -- `if err := e.Unmarshal(b); err != nil { return }`
  | none => ⟨h, [], none⟩
  | some _ => ⟨h, [], none⟩

/-- Method `hci.handleDisconnectionComplete`; `Unmarshal` is the decoder
`(*evt.DisconnectionCompleteEvent).Unmarshal` (`none`: it returned an error). -/
def hci.handleDisconnectionComplete
    (Unmarshal : List Byte → Option DisconnectionCompleteEvent)
    (h : hci) (b : List Byte) : Exec hci :=
  match Unmarshal b with
  -- `if err := e.Unmarshal(b); err != nil { return }`
  | none => ⟨h, [], none⟩
  | some e =>
    -- `c, found := h.conns[e.ConnectionHandle]; delete(h.conns, e.ConnectionHandle)`
    let h1 : hci := { h with conns := mapDelete h.conns e.ConnectionHandle }
    match h.conns e.ConnectionHandle with
    -- `if !found { log.Errorf(...); return }`
    | none => ⟨h1, [Action.log (LogEntry.invalidHandle e.ConnectionHandle)], none⟩
    -- `c.Disconnect()`
    | some c => ⟨h1, [Action.disconnect c], none⟩

/-- The loop `for j := 0; j < int(e.HCNumOfCompletedPackets[i]); j++ { c.TxBuffers().Free() }`
for a count `n`, appending to the trace `tr`. -/
def freeLoop (c : Conn) : Nat → List Action → List Action
  | 0, tr => tr
  | n + 1, tr => freeLoop c n (tr ++ [Action.txFree c])

/-- The outer loop of `hci.handleNumberOfCompletedPackets`, with `n` iterations
left, at index `i`, after the actions `tr`. -/
def hci.completedPacketsLoop (h : hci) (e : NumberOfCompletedPacketsEvent) :
    Nat → Nat → List Action → Exec hci
  | 0, _, tr => ⟨h, tr, none⟩
  | n + 1, i, tr =>
    -- `e.ConnectionHandle[i]`
    match e.ConnectionHandle.get? i with
    | none => ⟨h, tr, some Panic.indexOutOfRange⟩
    | some handle =>
      -- `c, ok := h.conns[e.ConnectionHandle[i]]`
      match h.conns handle with
      -- `if !ok { h.muConns.Unlock(); return }`
      | none => ⟨h, tr, none⟩
      | some c =>
        -- `e.HCNumOfCompletedPackets[i]`
        match e.HCNumOfCompletedPackets.get? i with
        | none => ⟨h, tr, some Panic.indexOutOfRange⟩
        | some k => hci.completedPacketsLoop h e n (i + 1) (freeLoop c k tr)

/-- Method `hci.handleNumberOfCompletedPackets`; `Unmarshal` is the decoder
`(*evt.NumberOfCompletedPacketsEvent).Unmarshal` (`none`: it returned an error). -/
def hci.handleNumberOfCompletedPackets
    (Unmarshal : List Byte → Option NumberOfCompletedPacketsEvent)
    (h : hci) (b : List Byte) : Exec hci :=
  match Unmarshal b with
  -- `if err := e.Unmarshal(b); err != nil { return }`
  | none => ⟨h, [], none⟩
  -- `for i := 0; i < int(e.NumberOfHandles); i++ { ... }`
  | some e => hci.completedPacketsLoop h e e.NumberOfHandles 0 []

/-- Method `hci.handleLELongTermKeyRequest`; `Unmarshal` is the decoder
`(*evt.LELongTermKeyRequestEvent).Unmarshal` (`none`: it returned an error). -/
def hci.handleLELongTermKeyRequest
    (Unmarshal : List Byte → Option LELongTermKeyRequestEvent)
    (h : hci) (b : List Byte) : Exec hci :=
  match Unmarshal b with
  -- `if err := e.Unmarshal(b); err != nil { return }`
  | none => ⟨h, [], none⟩
  -- `h.Send(&cmd.LELongTermKeyRequestNegativeReply{ConnectionHandle: e.ConnectionHandle}, nil)`
  | some e =>
    ⟨h, [Action.send (Command.LELongTermKeyRequestNegativeReply e.ConnectionHandle) none], none⟩

/-- An upper-case hexadecimal digit. -/
def hexDigit (n : Nat) : Char :=
  if n < 10 then Char.ofNat (48 + n) else Char.ofNat (55 + n)

/-- Verb `%02X` applied to a byte. -/
def hex02X (x : Byte) : List Char := [hexDigit (x.val / 16), hexDigit (x.val % 16)]

/-- The closure `f` of `handleLEAdvertisingReport`:
`fmt.Sprintf("%02X:%02X:%02X:%02X:%02X:%02X", a[5], a[4], a[3], a[2], a[1], a[0])`. -/
def formatAddress (a : Fin 6 → Byte) : String :=
  String.mk (hex02X (a 5) ++ ':' :: hex02X (a 4) ++ ':' :: hex02X (a 3) ++ ':' ::
    hex02X (a 2) ++ ':' :: hex02X (a 1) ++ ':' :: hex02X (a 0))

/-- The loop of `hci.handleLEAdvertisingReport`, with `n` iterations left, at
index `i`, after the actions `tr`. -/
def hci.advertisingReportLoop (h : hci) (e : LEAdvertisingReportEvent) :
    Nat → Nat → List Action → Exec hci
  | 0, _, tr => ⟨h, tr, none⟩
  | n + 1, i, tr =>
    -- `e.EventType[i], e.AddressType[i], f(e.Address[i]), e.RSSI[i], e.Data[i]`
    match e.EventType.get? i, e.AddressType.get? i, e.Address.get? i, e.RSSI.get? i,
        e.Data.get? i with
    | some t, some at_, some a, some r, some d =>
      hci.advertisingReportLoop h e n (i + 1)
        (tr ++ [Action.log (LogEntry.advertisingReport t at_ (formatAddress a) r d)])
    | _, _, _, _, _ => ⟨h, tr, some Panic.indexOutOfRange⟩

/-- Method `hci.handleLEAdvertisingReport`; `Unmarshal` is the decoder
`(*evt.LEAdvertisingReportEvent).Unmarshal` (`none`: it returned an error). -/
def hci.handleLEAdvertisingReport
    (Unmarshal : List Byte → Option LEAdvertisingReportEvent)
    (h : hci) (p : List Byte) : Exec hci :=
  match Unmarshal p with
  -- `if err := e.Unmarshal(p); err != nil { return }`
  | none => ⟨h, [], none⟩
  -- `for i := 0; i < int(e.NumReports); i++ { log.Printf(...) }`
  | some e => hci.advertisingReportLoop h e e.NumReports 0 []

/-! ## Example decoders and states

The decoders of package `evt` are not part of `handler.go`; every handler takes
its decoder as a parameter, and every property below is proved for an
arbitrary decoder.  The decoders of this section are example values of that
parameter; they appear in the concrete instances only. -/

/-- A little-endian 16-bit value. -/
def le16 (lo hi : Byte) : Nat := lo.val + 256 * hi.val

/-- An example decoder of command-complete events, instantiating the decoder
parameter in the examples: packet count, little-endian opcode, return
parameters. -/
def sampleCommandComplete : List Byte → Option CommandCompleteEvent
  | n :: lo :: hi :: ps => some ⟨n.val, le16 lo hi, ps⟩
  | _ => none

/-- An example decoder of command-status events, instantiating the decoder
parameter in the examples: status, packet count, little-endian opcode. -/
def sampleCommandStatus : List Byte → Option CommandStatusEvent
  | [_, n, lo, hi] => some ⟨n.val, le16 lo hi⟩
  | _ => none

/-- An example decoder of LE connection-complete events, instantiating the
decoder parameter in the examples: sub-event code, status, little-endian
handle, further parameters. -/
def sampleLEConnectionComplete : List Byte → Option LEConnectionCompleteEvent
  | _ :: _ :: lo :: hi :: _ => some ⟨le16 lo hi⟩
  | _ => none

/-- An example decoder of LE connection-update-complete events, instantiating
the decoder parameter in the examples: it accepts a payload of at least four
bytes. -/
def sampleLEConnectionUpdateComplete : List Byte → Option LEConnectionUpdateCompleteEvent
  | _ :: _ :: _ :: _ :: _ => some ⟨⟩
  | _ => none

/-- An example decoder of disconnection-complete events, instantiating the
decoder parameter in the examples: status, little-endian handle, reason. -/
def sampleDisconnectionComplete : List Byte → Option DisconnectionCompleteEvent
  | [_, lo, hi, _] => some ⟨le16 lo hi⟩
  | _ => none

/-- Read `n` little-endian 16-bit values from the front of `b`. -/
def readLe16s : Nat → List Byte → Option (List Nat × List Byte)
  | 0, b => some ([], b)
  | n + 1, lo :: hi :: b =>
    match readLe16s n b with
    | some (vs, rest) => some (le16 lo hi :: vs, rest)
    | none => none
  | _ + 1, _ => none

/-- An example decoder of number-of-completed-packets events, instantiating
the decoder parameter in the examples: the number of handles, that many
handles, that many counts. -/
def sampleNumberOfCompletedPackets : List Byte → Option NumberOfCompletedPacketsEvent
  | [] => none
  | n :: b =>
    match readLe16s n.val b with
    | none => none
    | some (handles, rest) =>
      match readLe16s n.val rest with
      | some (counts, []) => some ⟨n.val, handles, counts⟩
      | _ => none

/-- An example decoder of LE long-term-key-request events, instantiating the
decoder parameter in the examples: sub-event code, little-endian handle,
further parameters. -/
def sampleLELongTermKeyRequest : List Byte → Option LELongTermKeyRequestEvent
  | _ :: lo :: hi :: _ => some ⟨le16 lo hi⟩
  | _ => none

/-- An example decoder of LE advertising-report events, instantiating the
decoder parameter in the examples: sub-event code, then one report (event
type, address type, six address bytes, signed signal strength, advertising
payload). -/
def sampleLEAdvertisingReport : List Byte → Option LEAdvertisingReportEvent
  | _ :: t :: at_ :: a0 :: a1 :: a2 :: a3 :: a4 :: a5 :: r :: data =>
    some ⟨1, [t.val], [at_.val], [![a0, a1, a2, a3, a4, a5]],
      [if r.val < 128 then (r.val : Int) else (r.val : Int) - 256], [data]⟩
  | _ => none

/-- A dispatcher with no handler installed (`map[int]Handler{}`). -/
def emptyDispatcher : dispatcher := ⟨fun _ => none⟩

/-- A state of `hci` with empty maps and queues, every channel open and unused. -/
def emptyHci : hci :=
  ⟨emptyDispatcher, [], fun _ => none, fun _ => none, [], fun _ => ⟨[], false⟩, 0⟩

/-- A state in which a command with opcode `0x0C03` is pending: its entry in
`sentCmds` refers to channel 0, which is open and unused. -/
def pendingResetHci : hci :=
  { emptyHci with sentCmds := mapSet emptyHci.sentCmds 0x0C03 ⟨0⟩ }

/-- The payload of a command-complete event
`{NumHCICommandPackets: 1, CommandOpcode: 0x0C03, ReturnParameters: [0xAA]}`. -/
def resetCompletePayload : List Byte := [0x01, 0x03, 0x0C, 0xAA]

/-- The payload of a command-status event
`{NumHCICommandPackets: 1, CommandOpcode: 0x0C03}`. -/
def resetStatusPayload : List Byte := [0x00, 0x01, 0x03, 0x0C]

/-- The payload of a command-status event
`{NumHCICommandPackets: 1, CommandOpcode: 0x0000}`. -/
def nopStatusPayload : List Byte := [0x00, 0x01, 0x00, 0x00]

/-- The payload of a command-complete event
`{NumHCICommandPackets: 1, CommandOpcode: 0x0000, ReturnParameters: []}`. -/
def nopCompletePayload : List Byte := [0x01, 0x00, 0x00]

/-! ## The Command Sender's side of the Pending-Command Registry

`handler.go` only reads `sentCmds`; the entries are made, and dropped, by the
Command Sender, which is modelled here from the specification. -/

/-- Modelled from the spec: the operation `register(opcode) -> completionSignal`
that section 4.2 exposes to the Command Sender, which is not part of
`handler.go`.  The single slot that the Pending-Command Registry holds for the
opcode (section 3) is set to a pending command whose one-shot completion signal
is the new channel `ch`, open and unused. -/
def hci.register (h : hci) (opcode : Nat) (ch : Nat) : hci :=
  { h with sentCmds := mapSet h.sentCmds (opcode : Int) ⟨ch⟩,
           chans := chanSet h.chans ch ⟨[], false⟩ }

/-- Modelled from the spec: the Command Sender awaiting its correlated result
(section 2, "sends a command and awaits its correlated result via the
Pending-Command Registry"), which is not part of `handler.go`.  The registry
"tracks one outstanding command per operation code", each with a one-shot
signal "fulfilled exactly once" (sections 2 and 3): once the signal of the
command registered for `opcode` is fulfilled (a value was sent on it, or it was
closed), the sender has its result, the command is no longer outstanding and
its slot is vacated; until then the sender waits and the registry is as it
was. -/
def hci.takeResult (h : hci) (opcode : Nat) : hci :=
  match h.sentCmds (opcode : Int) with
  | none => h
  | some p =>
    if (h.chans p.done).sent ≠ [] ∨ (h.chans p.done).closed = true then
      { h with sentCmds := mapDelete h.sentCmds (opcode : Int) }
    else h

/-! ## Example packets and dispatchers -/

/-- A well-formed event packet with event code `0x0E`, declared length 4 and
the four payload bytes of `resetCompletePayload`. -/
def wellFormedPacket : List Byte := [0x0E, 0x04, 0x01, 0x03, 0x0C, 0xAA]

/-- An event packet with event code `0x0E` whose declared length 9 differs
from the length 4 of its payload. -/
def mismatchedPacket : List Byte := [0x0E, 0x09, 0x01, 0x03, 0x0C, 0xAA]

/-- A dispatcher whose only handler is handler 7, installed for event code `0x0E`. -/
def oneHandlerDispatcher : dispatcher := (emptyDispatcher.SetHandler 0x0E (Ble.Handler.func 7)).1

/-- Verb `%X`: the upper-case hexadecimal digits of `n`, most significant
first; `fuel` bounds the number of digits. -/
def hexXAux : Nat → Nat → List Char
  | 0, _ => []
  | fuel + 1, n =>
    if n < 16 then [hexDigit n] else hexXAux fuel (n / 16) ++ [hexDigit (n % 16)]

/-- Verb `%04X`: the upper-case hexadecimal digits of `n`, padded with zeros on
the left to a width of four. -/
def hex04X (n : Nat) : List Char :=
  List.replicate (4 - (hexXAux (n + 1) n).length) '0' ++ hexXAux (n + 1) n

/-- The text of the log entry `LogEntry.invalidHandle`:
`fmt.Sprintf("conns: disconnecting an invalid handle %04X", e.ConnectionHandle)`. -/
def invalidHandleText (ConnectionHandle : Nat) : String :=
  String.append "conns: disconnecting an invalid handle " (String.mk (hex04X ConnectionHandle))

/-- Whether an action is a connection teardown `c.Disconnect()`. -/
def Action.isDisconnect : Action → Bool
  | Action.disconnect _ => true
  | _ => false

/-- The payload of a disconnection-complete event for handle `0x0040`. -/
def disconnect0040Payload : List Byte := [0x00, 0x40, 0x00, 0x13]

/-- The payload of an LE connection-complete event for handle `0x0040`. -/
def connect0040Payload : List Byte := [0x01, 0x00, 0x40, 0x00, 0x01]

/-- An example of the accessor `l2cap.Packet(b).Handle()`: the low twelve bits
of the little-endian 16-bit value in the first two bytes. -/
def sampleHandle : List Byte → Nat
  | lo :: hi :: _ => le16 lo hi % 4096
  | _ => 0

/-- A data packet whose handle field is `0x0040`. -/
def aclPacket0040 : List Byte := [0x40, 0x20, 0x02, 0x00, 0xDE, 0xAD]

/-- The state after an LE connection-complete event for handle `0x0040` on the
empty state: handle `0x0040` maps to connection 0. -/
def connected0040Hci : hci :=
  (hci.handleLEConnectionComplete sampleLEConnectionComplete emptyHci connect0040Payload).state

/-- The payload of an LE long-term-key-request event for handle `0x0020`
(sub-event code 5, handle, eight bytes of random number, two of diversifier). -/
def ltkRequest0020Payload : List Byte :=
  [0x05, 0x20, 0x00, 0x01, 0x02, 0x03, 0x04, 0x05, 0x06, 0x07, 0x08, 0x09, 0x0A]

/-- A state whose sub-event table holds handler 3 for sub-event code `0x02`. -/
def subeventHci : hci :=
  { emptyHci with subevtHandlers := (emptyDispatcher.SetHandler 0x02 (Ble.Handler.func 3)).1 }

/-- An LE-meta payload with sub-event code `0x02`. -/
def leMeta02Payload : List Byte := [0x02, 0x01, 0x00]

/-- An LE-meta payload with sub-event code `0x0A`. -/
def leMeta0APayload : List Byte := [0x0A, 0x00]

/-- The dispatcher after handler 7 was installed for code `0x0E` and then
removed with `SetHandler(0x0E, nil)`. -/
def removedHandlerDispatcher : dispatcher :=
  (oneHandlerDispatcher.SetHandler 0x0E Ble.Handler.nil).1

/-- The `Free` operations of one pair `(handle, count)` of a
number-of-completed-packets event: `count` calls of `c.TxBuffers().Free()` on
the connection `c` the handle maps to (none when the handle is not a key). -/
def pairFrees (h : hci) (p : Nat × Nat) : List Action :=
  match h.conns p.1 with
  | some c => List.replicate p.2 (Action.txFree c)
  | none => []

/-- The number-of-completed-packets event that carries the pairs
`(handle, count)` of `pairs`, in order. -/
def completedPacketsEvent (pairs : List (Nat × Nat)) : NumberOfCompletedPacketsEvent :=
  ⟨pairs.length, pairs.map Prod.fst, pairs.map Prod.snd⟩

/-- The payload of a number-of-completed-packets event with the pairs
`(0x0040, 2)` and `(0x0040, 1)`. -/
def completedTwoPairsPayload : List Byte :=
  [0x02, 0x40, 0x00, 0x40, 0x00, 0x02, 0x00, 0x01, 0x00]

/-- The payload of a number-of-completed-packets event with the pairs
`(0x0040, 2)`, `(0x0041, 3)` and `(0x0040, 1)`. -/
def completedThreePairsPayload : List Byte :=
  [0x03, 0x40, 0x00, 0x41, 0x00, 0x40, 0x00, 0x02, 0x00, 0x03, 0x00, 0x01, 0x00]

/-- The value of an upper-case hexadecimal digit. -/
def hexValue (c : Char) : Nat :=
  if c.toNat < 58 then c.toNat - 48 else c.toNat - 55

/-- The byte written by the two hexadecimal digits `hi` and `lo`. -/
def parseHex02X (hi lo : Char) : Byte := Fin.ofNat (16 * hexValue hi + hexValue lo)

/-- Read an address back from its rendering: six groups of two hexadecimal
digits separated by colons, the first group being byte 5 of the address and
the last group byte 0. -/
def parseAddress (s : String) : Option (Fin 6 → Byte) :=
  match s.data with
  | [h5, l5, s5, h4, l4, s4, h3, l3, s3, h2, l2, s2, h1, l1, s1, h0, l0] =>
    if s5 = ':' ∧ s4 = ':' ∧ s3 = ':' ∧ s2 = ':' ∧ s1 = ':' then
      some ![parseHex02X h0 l0, parseHex02X h1 l1, parseHex02X h2 l2, parseHex02X h3 l3,
        parseHex02X h4 l4, parseHex02X h5 l5]
    else none
  | _ => none

/-- The upper-case hexadecimal digits. -/
def upperHexDigits : List Char :=
  ['0', '1', '2', '3', '4', '5', '6', '7', '8', '9', 'A', 'B', 'C', 'D', 'E', 'F']

/-- The record that `handleLEAdvertisingReport` logs for the report of index
`i` of the event `e`. -/
def reportRecord (e : LEAdvertisingReportEvent) (i : Nat) : Action :=
  Action.log (LogEntry.advertisingReport (e.EventType.getD i 0) (e.AddressType.getD i 0)
    (formatAddress (e.Address.getD i (fun _ => 0))) (e.RSSI.getD i 0) (e.Data.getD i []))

/-- Read `n` advertising reports laid out one after the other: event type,
address type, six address bytes, signed signal strength, length of the
advertising payload, advertising payload. -/
def readReports : Nat → List Byte →
    Option (List (Nat × Nat × (Fin 6 → Byte) × Int × List Byte))
  | 0, [] => some []
  | 0, _ :: _ => none
  | n + 1, t :: at_ :: a0 :: a1 :: a2 :: a3 :: a4 :: a5 :: r :: len :: rest =>
    if len.val ≤ rest.length then
      match readReports n (rest.drop len.val) with
      | some rs =>
        some ((t.val, at_.val, ![a0, a1, a2, a3, a4, a5],
          (if r.val < 128 then (r.val : Int) else (r.val : Int) - 256),
          rest.take len.val) :: rs)
      | none => none
    else none
  | _ + 1, _ => none

/-- An example decoder of LE advertising-report events with several reports,
instantiating the decoder parameter in the examples: sub-event code, number of
reports, then the reports as `readReports` reads them. -/
def sampleLEAdvertisingReports : List Byte → Option LEAdvertisingReportEvent
  | _ :: n :: b =>
    match readReports n.val b with
    | some rs =>
      some ⟨n.val, rs.map (fun r => r.1), rs.map (fun r => r.2.1), rs.map (fun r => r.2.2.1),
        rs.map (fun r => r.2.2.2.1), rs.map (fun r => r.2.2.2.2)⟩
    | none => none
  | _ => none

/-- The payload of an LE advertising-report event with two reports: address
`AB:89:67:45:23:01` with signal strength -56 and payload `[0x02, 0x01]`, then
address `0F:0E:0D:0C:0B:0A` with signal strength 20 and an empty payload. -/
def twoReportsPayload : List Byte :=
  [0x02, 0x02,
   0x00, 0x01, 0x01, 0x23, 0x45, 0x67, 0x89, 0xAB, 0xC8, 0x02, 0x02, 0x01,
   0x03, 0x00, 0x0A, 0x0B, 0x0C, 0x0D, 0x0E, 0x0F, 0x14, 0x00]

/-- The event that `twoReportsPayload` carries. -/
def twoReportsEvent : LEAdvertisingReportEvent :=
  ⟨2, [0, 3], [1, 0],
    [![0x01, 0x23, 0x45, 0x67, 0x89, 0xAB], ![0x0A, 0x0B, 0x0C, 0x0D, 0x0E, 0x0F]],
    [-56, 20], [[0x02, 0x01], []]⟩

/-! ## Properties -/

/-- The replenishment loop appends `n` fresh 64-byte buffers to the command
credit pool and changes nothing else. -/
theorem replenish_eq (n : Nat) (h : hci) :
    hci.replenish n h = { h with chCmdBufs := h.chCmdBufs ++ List.replicate n make64 } := by
  induction n generalizing h with
  | zero => simp [hci.replenish]
  | succ n ih =>
    rw [hci.replenish, ih]
    simp [List.replicate_succ]

/-- The outcome of `handleCommandComplete` on an event for an opcode other than
`0x0000` that has a registered entry whose channel is open. -/
theorem handleCommandComplete_registered
    (Unmarshal : List Byte → Option CommandCompleteEvent) (h : hci) (b : List Byte)
    (X N : Nat) (P : List Byte) (p : pkt)
    (hdec : Unmarshal b = some ⟨N, X, P⟩) (hX : X ≠ 0x0000)
    (hreg : h.sentCmds (X : Int) = some p) (hopen : (h.chans p.done).closed = false) :
    hci.handleCommandComplete Unmarshal h b
      = ⟨{ h with chCmdBufs := h.chCmdBufs ++ List.replicate N make64,
                  chans := chanSet h.chans p.done ⟨(h.chans p.done).sent ++ [P], false⟩ },
          [], none⟩ := by
  simp only [hci.handleCommandComplete, hdec, replenish_eq, if_neg hX, hreg, hopen]
  rfl

/-- The outcome of `handleCommandComplete` on an event for an opcode other than
`0x0000` that has no registered entry. -/
theorem handleCommandComplete_unregistered
    (Unmarshal : List Byte → Option CommandCompleteEvent) (h : hci) (b : List Byte)
    (X N : Nat) (P : List Byte)
    (hdec : Unmarshal b = some ⟨N, X, P⟩) (hX : X ≠ 0x0000)
    (hreg : h.sentCmds (X : Int) = none) :
    hci.handleCommandComplete Unmarshal h b
      = ⟨{ h with chCmdBufs := h.chCmdBufs ++ List.replicate N make64 },
          [Action.log (LogEntry.cantFindCmdComplete ⟨N, X, P⟩)], none⟩ := by
  simp only [hci.handleCommandComplete, hdec, replenish_eq, if_neg hX, hreg]

/-- C1: when a pending entry `p` is registered for an opcode `X` other than
`0x0000` (its completion signal still open) and the payload decodes to the
command-complete event `{X, N, P}`, `handleCommandComplete` returns without
panic or log entry, appends exactly `N` buffers to the command credit pool,
sends exactly `P`, once, on the completion channel of `p`, and leaves every
other channel, the registry of pending commands and the rest of the state as
they were. -/
theorem handleCommandComplete_fulfils
    (Unmarshal : List Byte → Option CommandCompleteEvent) (h : hci) (b : List Byte)
    (X N : Nat) (P : List Byte) (p : pkt)
    (hdec : Unmarshal b = some ⟨N, X, P⟩) (hX : X ≠ 0x0000)
    (hreg : h.sentCmds (X : Int) = some p) (hopen : (h.chans p.done).closed = false) :
    (hci.handleCommandComplete Unmarshal h b).fault = none ∧
    (hci.handleCommandComplete Unmarshal h b).trace = [] ∧
    (hci.handleCommandComplete Unmarshal h b).state.chCmdBufs
      = h.chCmdBufs ++ List.replicate N make64 ∧
    (hci.handleCommandComplete Unmarshal h b).state.chans p.done
      = ⟨(h.chans p.done).sent ++ [P], false⟩ ∧
    (∀ ch, ch ≠ p.done →
      (hci.handleCommandComplete Unmarshal h b).state.chans ch = h.chans ch) ∧
    (hci.handleCommandComplete Unmarshal h b).state.sentCmds = h.sentCmds ∧
    (hci.handleCommandComplete Unmarshal h b).state.conns = h.conns ∧
    (hci.handleCommandComplete Unmarshal h b).state.chConn = h.chConn ∧
    (hci.handleCommandComplete Unmarshal h b).state.subevtHandlers = h.subevtHandlers ∧
    (hci.handleCommandComplete Unmarshal h b).state.nextConn = h.nextConn := by
  rw [handleCommandComplete_registered Unmarshal h b X N P p hdec hX hreg hopen]
  refine ⟨rfl, rfl, rfl, ?_, ?_, rfl, rfl, rfl, rfl, rfl⟩
  · simp [chanSet]
  · intro ch hch
    simp [chanSet, hch]

/-- C1, witness: opcode `0x0C03` registered, event `{0x0C03, 1, [0xAA]}`: the
credit pool gains one buffer and the signal receives `[0xAA]`. -/
theorem handleCommandComplete_fulfils_witness :
    sampleCommandComplete resetCompletePayload = some ⟨1, 0x0C03, [0xAA]⟩ ∧
    pendingResetHci.sentCmds ((0x0C03 : Nat) : Int) = some ⟨0⟩ ∧
    (pendingResetHci.chans 0).closed = false ∧
    (hci.handleCommandComplete sampleCommandComplete pendingResetHci
      resetCompletePayload).state.chCmdBufs = pendingResetHci.chCmdBufs ++ [make64] ∧
    (hci.handleCommandComplete sampleCommandComplete pendingResetHci
      resetCompletePayload).state.chans 0 = ⟨[[0xAA]], false⟩ :=
  have w := handleCommandComplete_fulfils sampleCommandComplete pendingResetHci
    resetCompletePayload 0x0C03 1 [0xAA] ⟨0⟩ rfl (by decide) rfl rfl
  ⟨rfl, rfl, rfl, w.2.2.1, w.2.2.2.1⟩

/-- C2: for every opcode `X` other than `0x0000` (an event for `0x0000` never
fulfils a signal): after the Command Sender has registered a pending command
for `X`, a command-complete event `{X, N, P}` sends `P` on its signal, once and
without a log entry; the sender takes its result, and no new registration is
made.  A second command-complete event `{X, N2, P2}` then finds no entry for
`X`: `handleCommandComplete` returns without panic after logging exactly one
entry, the correlation-miss error, and every completion channel is as the
first event left it, so no signal is written a second time. -/
theorem second_completion_is_correlation_miss
    (Unmarshal : List Byte → Option CommandCompleteEvent) (h : hci) (b b2 : List Byte)
    (X N N2 ch : Nat) (P P2 : List Byte)
    (hdec : Unmarshal b = some ⟨N, X, P⟩) (hdec2 : Unmarshal b2 = some ⟨N2, X, P2⟩)
    (hX : X ≠ 0x0000) :
    (hci.handleCommandComplete Unmarshal (h.register X ch) b).trace = [] ∧
    (hci.handleCommandComplete Unmarshal (h.register X ch) b).state.chans ch
      = ⟨[P], false⟩ ∧
    ((hci.handleCommandComplete Unmarshal (h.register X ch) b).state.takeResult X).sentCmds
      (X : Int) = none ∧
    (hci.handleCommandComplete Unmarshal
      ((hci.handleCommandComplete Unmarshal (h.register X ch) b).state.takeResult X) b2).trace
        = [Action.log (LogEntry.cantFindCmdComplete ⟨N2, X, P2⟩)] ∧
    (hci.handleCommandComplete Unmarshal
      ((hci.handleCommandComplete Unmarshal (h.register X ch) b).state.takeResult X) b2).fault
        = none ∧
    (hci.handleCommandComplete Unmarshal
      ((hci.handleCommandComplete Unmarshal (h.register X ch) b).state.takeResult X)
        b2).state.chans
        = (hci.handleCommandComplete Unmarshal (h.register X ch) b).state.chans := by
  have hreg : (h.register X ch).sentCmds (X : Int) = some ⟨ch⟩ := by
    simp [hci.register, mapSet]
  have hopen : ((h.register X ch).chans (pkt.mk ch).done).closed = false := by
    simp [hci.register, chanSet]
  have h1 := handleCommandComplete_registered Unmarshal (h.register X ch) b X N P ⟨ch⟩
    hdec hX hreg hopen
  have hch : (hci.handleCommandComplete Unmarshal (h.register X ch) b).state.chans ch
      = ⟨[P], false⟩ := by
    rw [h1]
    simp [hci.register, chanSet]
  have hs1 : (hci.handleCommandComplete Unmarshal (h.register X ch) b).state.sentCmds
      (X : Int) = some ⟨ch⟩ := by
    rw [h1]
    exact hreg
  have htake : (hci.handleCommandComplete Unmarshal (h.register X ch) b).state.takeResult X
      = { (hci.handleCommandComplete Unmarshal (h.register X ch) b).state with
          sentCmds := mapDelete
            (hci.handleCommandComplete Unmarshal (h.register X ch) b).state.sentCmds
            (X : Int) } := by
    simp [hci.takeResult, hs1, hch]
  have hnone : ((hci.handleCommandComplete Unmarshal (h.register X ch) b).state.takeResult
      X).sentCmds (X : Int) = none := by
    rw [htake]
    simp [mapDelete]
  have h2 := handleCommandComplete_unregistered Unmarshal
    ((hci.handleCommandComplete Unmarshal (h.register X ch) b).state.takeResult X) b2 X N2 P2
    hdec2 hX hnone
  refine ⟨?_, hch, hnone, ?_, ?_, ?_⟩
  · rw [h1]
  · rw [h2]
  · rw [h2]
  · rw [h2, htake]

/-- C2, witness: opcode `0x0C03` is registered on the empty state with channel
0 as its signal; the first event sends `[0xAA]` on channel 0, the sender takes
it, and the second event is logged as a correlation miss. -/
theorem second_completion_is_correlation_miss_witness :
    sampleCommandComplete resetCompletePayload = some ⟨1, 0x0C03, [0xAA]⟩ ∧
    (0x0C03 : Nat) ≠ 0x0000 ∧
    (hci.handleCommandComplete sampleCommandComplete (emptyHci.register 0x0C03 0)
      resetCompletePayload).state.chans 0 = ⟨[[0xAA]], false⟩ ∧
    (hci.handleCommandComplete sampleCommandComplete
      ((hci.handleCommandComplete sampleCommandComplete (emptyHci.register 0x0C03 0)
        resetCompletePayload).state.takeResult 0x0C03) resetCompletePayload).trace
      = [Action.log (LogEntry.cantFindCmdComplete ⟨1, 0x0C03, [0xAA]⟩)] ∧
    (hci.handleCommandComplete sampleCommandComplete
      ((hci.handleCommandComplete sampleCommandComplete (emptyHci.register 0x0C03 0)
        resetCompletePayload).state.takeResult 0x0C03) resetCompletePayload).state.chans 0
      = ⟨[[0xAA]], false⟩ :=
  have w := second_completion_is_correlation_miss sampleCommandComplete emptyHci
    resetCompletePayload resetCompletePayload 0x0C03 1 1 0 [0xAA] [0xAA] rfl rfl (by decide)
  ⟨rfl, by decide, w.2.1, w.2.2.2.1, (congrFun w.2.2.2.2.2 0).trans w.2.1⟩

/-- C3: for the reserved opcode `0x0000`, `handleCommandComplete` appends `N`
buffers to the command credit pool and returns without reading the registry
and without logging; `handleCommandStatus` has no such branch: after the same
replenishment it looks the opcode up in the registry, and when no entry is
registered for `0x0000` it logs one error. -/
theorem nop_opcode_status_logs_error
    (UnmarshalC : List Byte → Option CommandCompleteEvent)
    (UnmarshalS : List Byte → Option CommandStatusEvent)
    (h : hci) (b : List Byte) (N : Nat) :
    (∀ P, UnmarshalC b = some ⟨N, 0x0000, P⟩ →
      hci.handleCommandComplete UnmarshalC h b
        = ⟨{ h with chCmdBufs := h.chCmdBufs ++ List.replicate N make64 }, [], none⟩) ∧
    (UnmarshalS b = some ⟨N, 0x0000⟩ → h.sentCmds 0 = none →
      hci.handleCommandStatus UnmarshalS h b
        = ⟨{ h with chCmdBufs := h.chCmdBufs ++ List.replicate N make64 },
            [Action.log (LogEntry.cantFindCmdStatus ⟨N, 0x0000⟩)], none⟩) := by
  constructor
  · intro P hdec
    simp [hci.handleCommandComplete, hdec, replenish_eq]
  · intro hdec hnone
    simp [hci.handleCommandStatus, hdec, replenish_eq, hnone]

/-- C3, witness: in a state with no pending entry, a command-status event
`{0x0000, 1}` adds one buffer and logs a correlation error, where the
command-complete event `{0x0000, 1, []}` adds one buffer and logs nothing. -/
theorem nop_opcode_status_logs_error_witness :
    sampleCommandStatus nopStatusPayload = some ⟨1, 0x0000⟩ ∧
    emptyHci.sentCmds 0 = none ∧
    (hci.handleCommandStatus sampleCommandStatus emptyHci nopStatusPayload).trace
      = [Action.log (LogEntry.cantFindCmdStatus ⟨1, 0x0000⟩)] ∧
    (hci.handleCommandStatus sampleCommandStatus emptyHci nopStatusPayload).state.chCmdBufs
      = [make64] ∧
    (hci.handleCommandComplete sampleCommandComplete emptyHci nopCompletePayload).trace
      = [] :=
  have w := nop_opcode_status_logs_error sampleCommandComplete sampleCommandStatus
    emptyHci nopStatusPayload 1
  ⟨rfl, rfl, congrArg Exec.trace (w.2 rfl rfl), congrArg (fun r => r.state.chCmdBufs)
    (w.2 rfl rfl), rfl⟩

/-- C4: when a pending entry `p` is registered for the opcode `X` (its
completion signal still open) and the payload decodes to the command-status
event `{X, N}`, `handleCommandStatus` returns without panic or log entry,
appends exactly `N` buffers to the command credit pool (as
`handleCommandComplete` does) and closes the completion channel of `p`
without sending on it; and in every state, whatever the payload, the values
sent on every channel are the same after `handleCommandStatus` as before. -/
theorem handleCommandStatus_closes
    (Unmarshal : List Byte → Option CommandStatusEvent) (h : hci) (b : List Byte) :
    (∀ (X N : Nat) (p : pkt), Unmarshal b = some ⟨N, X⟩ →
      h.sentCmds (X : Int) = some p → (h.chans p.done).closed = false →
      (hci.handleCommandStatus Unmarshal h b).fault = none ∧
      (hci.handleCommandStatus Unmarshal h b).trace = [] ∧
      (hci.handleCommandStatus Unmarshal h b).state.chCmdBufs
        = h.chCmdBufs ++ List.replicate N make64 ∧
      (hci.handleCommandStatus Unmarshal h b).state.chans p.done
        = ⟨(h.chans p.done).sent, true⟩ ∧
      (∀ ch, ch ≠ p.done →
        (hci.handleCommandStatus Unmarshal h b).state.chans ch = h.chans ch) ∧
      (hci.handleCommandStatus Unmarshal h b).state.sentCmds = h.sentCmds ∧
      (hci.handleCommandStatus Unmarshal h b).state.conns = h.conns) ∧
    (∀ ch, ((hci.handleCommandStatus Unmarshal h b).state.chans ch).sent
      = (h.chans ch).sent) := by
  constructor
  · intro X N p hdec hreg hopen
    simp only [hci.handleCommandStatus, hdec, replenish_eq, hreg, hopen]
    refine ⟨rfl, rfl, rfl, ?_, ?_, rfl, rfl⟩
    · simp [chanSet]
    · intro ch hch
      simp [chanSet, hch]
  · intro ch
    unfold hci.handleCommandStatus
    cases hdec : Unmarshal b with
    | none => rfl
    | some e =>
      simp only [replenish_eq]
      cases hreg : h.sentCmds (e.CommandOpcode : Int) with
      | none => rfl
      | some p =>
        by_cases hcl : (h.chans p.done).closed = true
        · simp [hcl]
        · simp only [hcl]
          by_cases hch : ch = p.done
          · simp [chanSet, hch]
          · simp [chanSet, hch]

/-- C4, witness: opcode `0x0C03` registered, status event `{0x0C03, 1}`: one
buffer is added and channel 0 is closed with nothing sent on it. -/
theorem handleCommandStatus_closes_witness :
    sampleCommandStatus resetStatusPayload = some ⟨1, 0x0C03⟩ ∧
    pendingResetHci.sentCmds ((0x0C03 : Nat) : Int) = some ⟨0⟩ ∧
    (pendingResetHci.chans 0).closed = false ∧
    (hci.handleCommandStatus sampleCommandStatus pendingResetHci
      resetStatusPayload).state.chCmdBufs = pendingResetHci.chCmdBufs ++ [make64] ∧
    (hci.handleCommandStatus sampleCommandStatus pendingResetHci
      resetStatusPayload).state.chans 0 = ⟨[], true⟩ :=
  have w := (handleCommandStatus_closes sampleCommandStatus pendingResetHci
    resetStatusPayload).1 0x0C03 1 ⟨0⟩ rfl rfl rfl
  ⟨rfl, rfl, rfl, w.2.2.1, w.2.2.2.1⟩

/-- C5: after `SetHandler(C, f)` for a handler `f`, dispatching a packet `b`
with `b[0] = C` and `b[1] = len(b) - 2` starts `f` exactly once, on `b[2:]`,
and does nothing else: no other handler, no warning, no unsupported notice,
no panic, and the handler map is left as `SetHandler` made it. -/
theorem dispatch_after_SetHandler (d : dispatcher) (C : Int) (f : Nat) (b : List Byte)
    (c l : Byte) (h0 : b[0]? = some c) (h1 : b[1]? = some l)
    (hC : (c.val : Int) = C) (hl : l.val = b.length - 2) :
    (d.SetHandler C (Ble.Handler.func f)).1.dispatch b
      = ⟨(d.SetHandler C (Ble.Handler.func f)).1, [Action.go f (b.drop 2)], none⟩ := by
  match b, h0, h1, hl with
  | x :: y :: payload, h0, h1, hl =>
    simp only [List.getElem?_cons_zero, List.getElem?_cons_succ, Option.some.injEq] at h0 h1
    subst h0 h1
    simp only [List.length_cons, Nat.add_sub_cancel] at hl
    simp [dispatcher.dispatch, dispatcher.SetHandler, mapSet, hC, hl]

/-- C5, witness: handler 7 installed for code `0x0E`, then a well-formed
packet for `0x0E` dispatched. -/
theorem dispatch_after_SetHandler_witness :
    wellFormedPacket[0]? = some 0x0E ∧ wellFormedPacket[1]? = some 0x04 ∧
    (((0x0E : Byte).val : Int) = 0x0E) ∧ (0x04 : Byte).val = wellFormedPacket.length - 2 ∧
    oneHandlerDispatcher.dispatch wellFormedPacket
      = ⟨oneHandlerDispatcher, [Action.go 7 [0x01, 0x03, 0x0C, 0xAA]], none⟩ :=
  ⟨rfl, rfl, rfl, rfl,
    dispatch_after_SetHandler emptyDispatcher 0x0E 7 wellFormedPacket 0x0E 0x04 rfl rfl rfl rfl⟩

/-- C6: for a packet `b` of length at least 2 whose code `b[0]` has the
registered handler `f` and whose declared length `b[1]` differs from
`len(b) - 2`, `dispatch` logs exactly one corrupt-packet warning and still
starts `f` exactly once, on the actual payload `b[2:]`; and for every handler
map, a corrupt-packet warning is logged if and only if `b[1] != len(b) - 2`,
and then only one. -/
theorem dispatch_length_mismatch (d : dispatcher) (b : List Byte) (c l : Byte)
    (h0 : b[0]? = some c) (h1 : b[1]? = some l) :
    (∀ f, d.handlers (c.val : Int) = some (Ble.Handler.func f) → l.val ≠ b.length - 2 →
      d.dispatch b
        = ⟨d, [Action.log (LogEntry.corruptPacket b), Action.go f (b.drop 2)], none⟩) ∧
    ((∃ a ∈ (d.dispatch b).trace, a.isCorruptWarning = true) ↔ l.val ≠ b.length - 2) ∧
    ((d.dispatch b).trace.filter Action.isCorruptWarning).length
      = (if l.val ≠ b.length - 2 then 1 else 0) := by
  match b, h0, h1 with
  | x :: y :: payload, h0, h1 =>
    simp only [List.getElem?_cons_zero, List.getElem?_cons_succ, Option.some.injEq] at h0 h1
    subst h0 h1
    have hlen : (x :: y :: payload).length - 2 = payload.length := by simp
    rw [hlen]
    refine ⟨?_, ?_, ?_⟩
    · intro f hf hne
      simp [dispatcher.dispatch, hf, hne]
    · cases hd : d.handlers (x.val : Int) with
      | none =>
        by_cases hne : y.val = payload.length <;>
          simp [dispatcher.dispatch, hd, hne, Action.isCorruptWarning]
      | some g =>
        cases g with
        | nil =>
          by_cases hne : y.val = payload.length <;>
            simp [dispatcher.dispatch, hd, hne, Action.isCorruptWarning]
        | func f =>
          by_cases hne : y.val = payload.length <;>
            simp [dispatcher.dispatch, hd, hne, Action.isCorruptWarning]
    · cases hd : d.handlers (x.val : Int) with
      | none =>
        by_cases hne : y.val = payload.length <;>
          simp [dispatcher.dispatch, hd, hne, Action.isCorruptWarning, List.filter]
      | some g =>
        cases g with
        | nil =>
          by_cases hne : y.val = payload.length <;>
            simp [dispatcher.dispatch, hd, hne, Action.isCorruptWarning, List.filter]
        | func f =>
          by_cases hne : y.val = payload.length <;>
            simp [dispatcher.dispatch, hd, hne, Action.isCorruptWarning, List.filter]

/-- C6, witness: handler 7 registered for `0x0E`, declared length 9, actual
payload length 4. -/
theorem dispatch_length_mismatch_witness :
    mismatchedPacket[0]? = some 0x0E ∧ mismatchedPacket[1]? = some 0x09 ∧
    oneHandlerDispatcher.handlers (((0x0E : Byte).val : Nat) : Int)
      = some (Ble.Handler.func 7) ∧
    (0x09 : Byte).val ≠ mismatchedPacket.length - 2 ∧
    oneHandlerDispatcher.dispatch mismatchedPacket
      = ⟨oneHandlerDispatcher, [Action.log (LogEntry.corruptPacket mismatchedPacket),
          Action.go 7 [0x01, 0x03, 0x0C, 0xAA]], none⟩ :=
  ⟨rfl, rfl, rfl, by decide,
    (dispatch_length_mismatch oneHandlerDispatcher mismatchedPacket 0x0E 0x09 rfl rfl).1 7 rfl
      (by decide)⟩

/-- C7: for a packet `b` of length at least 2 whose code `b[0]` is not a key of
the handler map, `dispatch` returns without panic, leaves the dispatcher as it
was, invokes no handler, and logs exactly one unsupported-event-packet entry
(after the corrupt-packet warning, when the declared length is wrong). -/
theorem dispatch_unsupported (d : dispatcher) (b : List Byte) (c l : Byte)
    (h0 : b[0]? = some c) (h1 : b[1]? = some l)
    (hnone : d.handlers (c.val : Int) = none) :
    (d.dispatch b).state = d ∧
    (d.dispatch b).fault = none ∧
    (d.dispatch b).trace
      = (if l.val ≠ b.length - 2 then [Action.log (LogEntry.corruptPacket b)] else [])
        ++ [Action.log (LogEntry.unsupportedPacket b)] ∧
    (d.dispatch b).trace.filter Action.isInvocation = [] ∧
    ((d.dispatch b).trace.filter Action.isUnsupportedNotice).length = 1 := by
  match b, h0, h1 with
  | x :: y :: payload, h0, h1 =>
    simp only [List.getElem?_cons_zero, List.getElem?_cons_succ, Option.some.injEq] at h0 h1
    subst h0 h1
    have hlen : (x :: y :: payload).length - 2 = payload.length := by simp
    rw [hlen]
    by_cases hne : y.val = payload.length <;>
      simp [dispatcher.dispatch, hnone, hne, List.filter, Action.isInvocation,
        Action.isUnsupportedNotice]

/-- C7, witness: no handler installed, a well-formed packet for code `0x0E`. -/
theorem dispatch_unsupported_witness :
    wellFormedPacket[0]? = some 0x0E ∧ wellFormedPacket[1]? = some 0x04 ∧
    emptyDispatcher.handlers (((0x0E : Byte).val : Nat) : Int) = none ∧
    (emptyDispatcher.dispatch wellFormedPacket).trace
      = [Action.log (LogEntry.unsupportedPacket wellFormedPacket)] :=
  ⟨rfl, rfl, rfl,
    (dispatch_unsupported emptyDispatcher wellFormedPacket 0x0E 0x04 rfl rfl rfl).2.2.1⟩

/-- C8: `SetHandler(c, f)` returns what `Handler(c)` returned just before the
call, which is nil when `c` is not a key of the map; afterwards `Handler(c)`
returns `f`, a later `SetHandler(c, g)` makes it return `g`, and `Handler(c2)`
is unchanged for every other code `c2`. -/
theorem SetHandler_returns_previous (d : dispatcher) (c : Int) (f g : Ble.Handler) :
    (d.SetHandler c f).2 = d.Handler c ∧
    (d.handlers c = none → (d.SetHandler c f).2 = Ble.Handler.nil) ∧
    (d.SetHandler c f).1.Handler c = f ∧
    ((d.SetHandler c f).1.SetHandler c g).2 = f ∧
    ((d.SetHandler c f).1.SetHandler c g).1.Handler c = g ∧
    (∀ c2, c2 ≠ c → (d.SetHandler c f).1.Handler c2 = d.Handler c2) := by
  refine ⟨rfl, ?_, ?_, ?_, ?_, ?_⟩
  · intro hnone
    simp [dispatcher.SetHandler, dispatcher.Handler, hnone]
  · simp [dispatcher.SetHandler, dispatcher.Handler, mapSet]
  · simp [dispatcher.SetHandler, dispatcher.Handler, mapSet]
  · simp [dispatcher.SetHandler, dispatcher.Handler, mapSet]
  · intro c2 hc2
    simp [dispatcher.SetHandler, dispatcher.Handler, mapSet, hc2]

/-- C8, witness: on the empty table `SetHandler(0x0E, 7)` returns nil, then
`Handler(0x0E)` is handler 7 and `Handler(0x3E)` is still nil. -/
theorem SetHandler_returns_previous_witness :
    emptyDispatcher.handlers 0x0E = none ∧ (0x3E : Int) ≠ 0x0E ∧
    (emptyDispatcher.SetHandler 0x0E (Ble.Handler.func 7)).2 = Ble.Handler.nil ∧
    oneHandlerDispatcher.Handler 0x0E = Ble.Handler.func 7 ∧
    oneHandlerDispatcher.Handler 0x3E = emptyDispatcher.Handler 0x3E :=
  have w := SetHandler_returns_previous emptyDispatcher 0x0E (Ble.Handler.func 7)
    Ble.Handler.nil
  ⟨rfl, by decide, w.2.1 rfl, w.2.2.1, w.2.2.2.2.2 0x3E (by decide)⟩

/-- C9: `dispatch` reads `b[0]` and `b[1]` without checking the length of `b`,
and `handleLEMeta` reads `b[0]` likewise: on the empty packet and on a packet
of one byte `dispatch` panics with an index out of range, and so does
`handleLEMeta` on the empty payload, whatever the state. -/
theorem short_packet_panics (d : dispatcher) (h : hci) (x : Byte) :
    (d.dispatch []).fault = some Panic.indexOutOfRange ∧
    (d.dispatch [x]).fault = some Panic.indexOutOfRange ∧
    (h.handleLEMeta []).fault = some Panic.indexOutOfRange :=
  ⟨rfl, rfl, rfl⟩

/-- C10: when the decoder fails on the payload, each of the eight decoding
handlers returns at once: the state is the one it was given (credit pool,
completion channels, registry, connection table and connection queue
included), no action is performed (nothing logged, no command sent, no buffer
freed, no connection torn down) and there is no panic. -/
theorem decode_failure_is_silent (h : hci) (b : List Byte)
    (U1 : List Byte → Option CommandCompleteEvent)
    (U2 : List Byte → Option CommandStatusEvent)
    (U3 : List Byte → Option LEConnectionCompleteEvent)
    (U4 : List Byte → Option LEConnectionUpdateCompleteEvent)
    (U5 : List Byte → Option DisconnectionCompleteEvent)
    (U6 : List Byte → Option NumberOfCompletedPacketsEvent)
    (U7 : List Byte → Option LELongTermKeyRequestEvent)
    (U8 : List Byte → Option LEAdvertisingReportEvent) :
    (U1 b = none → hci.handleCommandComplete U1 h b = ⟨h, [], none⟩) ∧
    (U2 b = none → hci.handleCommandStatus U2 h b = ⟨h, [], none⟩) ∧
    (U3 b = none → hci.handleLEConnectionComplete U3 h b = ⟨h, [], none⟩) ∧
    (U4 b = none → hci.handleLEConnectionUpdateComplete U4 h b = ⟨h, [], none⟩) ∧
    (U5 b = none → hci.handleDisconnectionComplete U5 h b = ⟨h, [], none⟩) ∧
    (U6 b = none → hci.handleNumberOfCompletedPackets U6 h b = ⟨h, [], none⟩) ∧
    (U7 b = none → hci.handleLELongTermKeyRequest U7 h b = ⟨h, [], none⟩) ∧
    (U8 b = none → hci.handleLEAdvertisingReport U8 h b = ⟨h, [], none⟩) := by
  refine ⟨?_, ?_, ?_, ?_, ?_, ?_, ?_, ?_⟩ <;> intro hfail
  · simp [hci.handleCommandComplete, hfail]
  · simp [hci.handleCommandStatus, hfail]
  · simp [hci.handleLEConnectionComplete, hfail]
  · simp [hci.handleLEConnectionUpdateComplete, hfail]
  · simp [hci.handleDisconnectionComplete, hfail]
  · simp [hci.handleNumberOfCompletedPackets, hfail]
  · simp [hci.handleLELongTermKeyRequest, hfail]
  · simp [hci.handleLEAdvertisingReport, hfail]

/-- C10, witness: the two-byte payload `[0x01, 0x03]` is too short for each of
the sample decoders, and each handler leaves the state with a pending command
as it was. -/
theorem decode_failure_is_silent_witness :
    (sampleCommandComplete [0x01, 0x03] = none ∧
      hci.handleCommandComplete sampleCommandComplete pendingResetHci [0x01, 0x03]
        = ⟨pendingResetHci, [], none⟩) ∧
    (sampleCommandStatus [0x01, 0x03] = none ∧
      hci.handleCommandStatus sampleCommandStatus pendingResetHci [0x01, 0x03]
        = ⟨pendingResetHci, [], none⟩) ∧
    (sampleLEConnectionComplete [0x01, 0x03] = none ∧
      hci.handleLEConnectionComplete sampleLEConnectionComplete pendingResetHci [0x01, 0x03]
        = ⟨pendingResetHci, [], none⟩) ∧
    (sampleLEConnectionUpdateComplete [0x01, 0x03] = none ∧
      hci.handleLEConnectionUpdateComplete sampleLEConnectionUpdateComplete pendingResetHci
        [0x01, 0x03] = ⟨pendingResetHci, [], none⟩) ∧
    (sampleDisconnectionComplete [0x01, 0x03] = none ∧
      hci.handleDisconnectionComplete sampleDisconnectionComplete pendingResetHci [0x01, 0x03]
        = ⟨pendingResetHci, [], none⟩) ∧
    (sampleNumberOfCompletedPackets [0x01, 0x03] = none ∧
      hci.handleNumberOfCompletedPackets sampleNumberOfCompletedPackets pendingResetHci
        [0x01, 0x03] = ⟨pendingResetHci, [], none⟩) ∧
    (sampleLELongTermKeyRequest [0x01, 0x03] = none ∧
      hci.handleLELongTermKeyRequest sampleLELongTermKeyRequest pendingResetHci [0x01, 0x03]
        = ⟨pendingResetHci, [], none⟩) ∧
    (sampleLEAdvertisingReport [0x01, 0x03] = none ∧
      hci.handleLEAdvertisingReport sampleLEAdvertisingReport pendingResetHci [0x01, 0x03]
        = ⟨pendingResetHci, [], none⟩) :=
  have w := decode_failure_is_silent pendingResetHci [0x01, 0x03] sampleCommandComplete
    sampleCommandStatus sampleLEConnectionComplete sampleLEConnectionUpdateComplete
    sampleDisconnectionComplete sampleNumberOfCompletedPackets sampleLELongTermKeyRequest
    sampleLEAdvertisingReport
  ⟨⟨rfl, w.1 rfl⟩, ⟨rfl, w.2.1 rfl⟩, ⟨rfl, w.2.2.1 rfl⟩, ⟨rfl, w.2.2.2.1 rfl⟩,
    ⟨rfl, w.2.2.2.2.1 rfl⟩, ⟨rfl, w.2.2.2.2.2.1 rfl⟩, ⟨rfl, w.2.2.2.2.2.2.1 rfl⟩,
    ⟨rfl, w.2.2.2.2.2.2.2 rfl⟩⟩

/-- Deleting a key that is absent leaves a map as it was. -/
theorem mapDelete_absent {κ α : Type} [DecidableEq κ] (m : κ → Option α) (k : κ)
    (hk : m k = none) : mapDelete m k = m := by
  funext k2
  by_cases h : k2 = k
  · simp [mapDelete, h, hk]
  · simp [mapDelete, h]

/-- The hexadecimal digits of a number below 65536, padded to a width of four. -/
theorem hex04X_of_lt (n : Nat) (hn : n < 65536) :
    hex04X n = [hexDigit (n / 4096), hexDigit (n / 256 % 16), hexDigit (n / 16 % 16),
      hexDigit (n % 16)] := by
  have hz : hexDigit 0 = '0' := by decide
  by_cases h1 : n < 16
  · have e1 : n / 4096 = 0 := by omega
    have e2 : n / 256 % 16 = 0 := by omega
    have e3 : n / 16 % 16 = 0 := by omega
    have e4 : n % 16 = n := by omega
    simp [hex04X, hexXAux, h1, e1, e2, e3, e4, hz, List.replicate]
  · obtain ⟨k, rfl⟩ : ∃ k, n = k + 1 := ⟨n - 1, by omega⟩
    by_cases h2 : k + 1 < 256
    · have a1 : (k + 1) / 16 < 16 := by omega
      have e1 : (k + 1) / 4096 = 0 := by omega
      have e2 : (k + 1) / 256 % 16 = 0 := by omega
      have e3 : (k + 1) / 16 % 16 = (k + 1) / 16 := by omega
      simp [hex04X, hexXAux, h1, a1, e1, e2, e3, hz, List.replicate]
    · obtain ⟨j, rfl⟩ : ∃ j, k = j + 1 := ⟨k - 1, by omega⟩
      by_cases h3 : j + 1 + 1 < 4096
      · have a1 : ¬ (j + 1 + 1) / 16 < 16 := by omega
        have a2 : (j + 1 + 1) / 16 / 16 < 16 := by omega
        have e1 : (j + 1 + 1) / 4096 = 0 := by omega
        have e2 : (j + 1 + 1) / 256 % 16 = (j + 1 + 1) / 16 / 16 := by omega
        have e3 : (j + 1 + 1) / 16 % 16 = (j + 1 + 1) / 16 % 16 := rfl
        simp [hex04X, hexXAux, h1, a1, a2, e1, e2, hz, List.replicate]
      · obtain ⟨i, rfl⟩ : ∃ i, j = i + 1 := ⟨j - 1, by omega⟩
        have a1 : ¬ (i + 1 + 1 + 1) / 16 < 16 := by omega
        have a2 : ¬ (i + 1 + 1 + 1) / 16 / 16 < 16 := by omega
        have a3 : (i + 1 + 1 + 1) / 16 / 16 / 16 < 16 := by omega
        have e1 : (i + 1 + 1 + 1) / 4096 = (i + 1 + 1 + 1) / 16 / 16 / 16 := by omega
        have e2 : (i + 1 + 1 + 1) / 256 % 16 = (i + 1 + 1 + 1) / 16 / 16 % 16 := by omega
        simp [hex04X, hexXAux, h1, a1, a2, a3, e1, e2, List.replicate]

/-- The outcome of `handleDisconnectionComplete` on an event for a handle that
is a key of the connection table. -/
theorem handleDisconnectionComplete_present
    (Unmarshal : List Byte → Option DisconnectionCompleteEvent) (h : hci) (b : List Byte)
    (H : Nat) (c : Conn) (hdec : Unmarshal b = some ⟨H⟩) (hc : h.conns H = some c) :
    hci.handleDisconnectionComplete Unmarshal h b
      = ⟨{ h with conns := mapDelete h.conns H }, [Action.disconnect c], none⟩ := by
  simp [hci.handleDisconnectionComplete, hdec, hc]

/-- C11: when the payload decodes to a disconnection-complete event for a
handle `H` that is not a key of the connection table, `handleDisconnectionComplete`
returns without panic, logs exactly one entry, the invalid-handle error for
`H`, tears no connection down, and leaves the connection table and the rest of
the state as they were; for a 16-bit `H` the text of the error ends in the
four upper-case hexadecimal digits of `H`. -/
theorem handleDisconnectionComplete_unknown_handle
    (Unmarshal : List Byte → Option DisconnectionCompleteEvent) (h : hci) (b : List Byte)
    (H : Nat) (hdec : Unmarshal b = some ⟨H⟩) (habs : h.conns H = none) :
    (hci.handleDisconnectionComplete Unmarshal h b).fault = none ∧
    (hci.handleDisconnectionComplete Unmarshal h b).trace
      = [Action.log (LogEntry.invalidHandle H)] ∧
    (hci.handleDisconnectionComplete Unmarshal h b).trace.filter Action.isDisconnect = [] ∧
    (hci.handleDisconnectionComplete Unmarshal h b).state.conns = h.conns ∧
    (hci.handleDisconnectionComplete Unmarshal h b).state = h ∧
    (H < 65536 → invalidHandleText H
      = String.append "conns: disconnecting an invalid handle "
          (String.mk [hexDigit (H / 4096), hexDigit (H / 256 % 16), hexDigit (H / 16 % 16),
            hexDigit (H % 16)])) := by
  have hres : hci.handleDisconnectionComplete Unmarshal h b
      = ⟨h, [Action.log (LogEntry.invalidHandle H)], none⟩ := by
    simp [hci.handleDisconnectionComplete, hdec, habs, mapDelete_absent]
  rw [hres]
  refine ⟨rfl, rfl, rfl, rfl, rfl, ?_⟩
  intro hH
  rw [invalidHandleText, hex04X_of_lt H hH]

/-- C11, witness: a disconnection-complete event for handle `0x0040` on the
empty connection table logs one error whose text ends in `0040`. -/
theorem handleDisconnectionComplete_unknown_handle_witness :
    sampleDisconnectionComplete disconnect0040Payload = some ⟨0x0040⟩ ∧
    emptyHci.conns 0x0040 = none ∧
    (hci.handleDisconnectionComplete sampleDisconnectionComplete emptyHci
      disconnect0040Payload).trace = [Action.log (LogEntry.invalidHandle 0x0040)] ∧
    (hci.handleDisconnectionComplete sampleDisconnectionComplete emptyHci
      disconnect0040Payload).state.conns = emptyHci.conns ∧
    invalidHandleText 0x0040 = "conns: disconnecting an invalid handle 0040" :=
  have w := handleDisconnectionComplete_unknown_handle sampleDisconnectionComplete emptyHci
    disconnect0040Payload 0x0040 rfl rfl
  ⟨rfl, rfl, w.2.1, w.2.2.2.1, (w.2.2.2.2.2 (by decide)).trans (by decide)⟩

/-- C12: after `handleLEConnectionComplete` on an event for handle `H` and then
`handleDisconnectionComplete` on an event for `H`, the connection table has no
entry for `H` (the connection made for `H` was torn down, without error), and
`handleACLData` on a data packet whose handle field is `H` returns with the
state unchanged and no action: nothing forwarded, nothing logged. -/
theorem disconnected_handle_drops_data
    (U3 : List Byte → Option LEConnectionCompleteEvent)
    (U5 : List Byte → Option DisconnectionCompleteEvent)
    (Handle : List Byte → Nat) (h : hci) (b1 b2 b3 : List Byte) (H : Nat)
    (hdec1 : U3 b1 = some ⟨H⟩) (hdec2 : U5 b2 = some ⟨H⟩) (hH : Handle b3 = H) :
    (hci.handleLEConnectionComplete U3 h b1).state.conns H = some ⟨h.nextConn, ⟨H⟩⟩ ∧
    (hci.handleDisconnectionComplete U5
      (hci.handleLEConnectionComplete U3 h b1).state b2).trace
        = [Action.disconnect ⟨h.nextConn, ⟨H⟩⟩] ∧
    (hci.handleDisconnectionComplete U5
      (hci.handleLEConnectionComplete U3 h b1).state b2).state.conns H = none ∧
    hci.handleACLData Handle
      (hci.handleDisconnectionComplete U5
        (hci.handleLEConnectionComplete U3 h b1).state b2).state b3
      = ⟨(hci.handleDisconnectionComplete U5
          (hci.handleLEConnectionComplete U3 h b1).state b2).state, [], none⟩ := by
  have hc : (hci.handleLEConnectionComplete U3 h b1).state.conns H
      = some ⟨h.nextConn, ⟨H⟩⟩ := by
    simp [hci.handleLEConnectionComplete, hdec1, mapSet]
  rw [handleDisconnectionComplete_present U5 _ b2 H _ hdec2 hc]
  refine ⟨hc, rfl, ?_, ?_⟩
  · simp [mapDelete]
  · simp [hci.handleACLData, hH, mapDelete]

/-- C12, witness: handle `0x0040` established on the empty state, disconnected,
then a data packet for `0x0040`. -/
theorem disconnected_handle_drops_data_witness :
    sampleLEConnectionComplete connect0040Payload = some ⟨0x0040⟩ ∧
    sampleDisconnectionComplete disconnect0040Payload = some ⟨0x0040⟩ ∧
    sampleHandle aclPacket0040 = 0x0040 ∧
    (hci.handleDisconnectionComplete sampleDisconnectionComplete
      connected0040Hci disconnect0040Payload).state.conns 0x0040 = none ∧
    (hci.handleACLData sampleHandle
      (hci.handleDisconnectionComplete sampleDisconnectionComplete
        connected0040Hci disconnect0040Payload).state aclPacket0040).trace = [] :=
  have w := disconnected_handle_drops_data sampleLEConnectionComplete
    sampleDisconnectionComplete sampleHandle emptyHci connect0040Payload
    disconnect0040Payload aclPacket0040 0x0040 rfl rfl (by decide)
  ⟨rfl, rfl, by decide, w.2.2.1, congrArg Exec.trace w.2.2.2⟩

/-- C15: when the payload decodes to an LE long-term-key-request event for the
handle `H`, `handleLELongTermKeyRequest` performs exactly one action, the call
`h.Send` of the command `LELongTermKeyRequestNegativeReply` with
`ConnectionHandle` equal to `H` and a nil result receiver, and returns without
panic, leaving the connection table, the credit pool and the rest of the state
as they were. -/
theorem handleLELongTermKeyRequest_negative_reply
    (Unmarshal : List Byte → Option LELongTermKeyRequestEvent) (h : hci) (b : List Byte)
    (H : Nat) (hdec : Unmarshal b = some ⟨H⟩) :
    hci.handleLELongTermKeyRequest Unmarshal h b
      = ⟨h, [Action.send (Command.LELongTermKeyRequestNegativeReply H) none], none⟩ := by
  simp [hci.handleLELongTermKeyRequest, hdec]

/-- C15, witness: a long-term-key-request event for handle `0x0020`. -/
theorem handleLELongTermKeyRequest_negative_reply_witness :
    sampleLELongTermKeyRequest ltkRequest0020Payload = some ⟨0x0020⟩ ∧
    hci.handleLELongTermKeyRequest sampleLELongTermKeyRequest connected0040Hci
      ltkRequest0020Payload
      = ⟨connected0040Hci,
          [Action.send (Command.LELongTermKeyRequestNegativeReply 0x0020) none], none⟩ :=
  ⟨rfl, handleLELongTermKeyRequest_negative_reply sampleLELongTermKeyRequest
    connected0040Hci ltkRequest0020Payload 0x0020 rfl⟩

/-- C17: for a non-empty payload `b`, `handleLEMeta` looks `b[0]` up in the
sub-event table: when `Handler(b[0])` is a handler `f`, the only action is one
call of `f` on the whole of `b`; when it is nil, the only action is one
unsupported-LE-event log entry; either way there is no panic and the state,
the sub-event table included, is unchanged. -/
theorem handleLEMeta_redispatch (h : hci) (c : Byte) (rest : List Byte) :
    (∀ f, h.subevtHandlers.Handler (c.val : Int) = Ble.Handler.func f →
      h.handleLEMeta (c :: rest) = ⟨h, [Action.handle f (c :: rest)], none⟩) ∧
    (h.subevtHandlers.Handler (c.val : Int) = Ble.Handler.nil →
      h.handleLEMeta (c :: rest)
        = ⟨h, [Action.log (LogEntry.unsupportedLE (c :: rest))], none⟩) ∧
    (h.handleLEMeta (c :: rest)).state = h ∧
    (h.handleLEMeta (c :: rest)).fault = none := by
  refine ⟨?_, ?_, ?_, ?_⟩
  · intro f hf
    simp [hci.handleLEMeta, hf]
  · intro hnil
    simp [hci.handleLEMeta, hnil]
  · cases hf : h.subevtHandlers.Handler (c.val : Int) <;> simp [hci.handleLEMeta, hf]
  · cases hf : h.subevtHandlers.Handler (c.val : Int) <;> simp [hci.handleLEMeta, hf]

/-- C17, witness: handler 3 registered for sub-event `0x02`; a payload for
`0x02` calls it, a payload for `0x0A` is logged as unsupported. -/
theorem handleLEMeta_redispatch_witness :
    subeventHci.subevtHandlers.Handler (((0x02 : Byte).val : Nat) : Int)
      = Ble.Handler.func 3 ∧
    subeventHci.subevtHandlers.Handler (((0x0A : Byte).val : Nat) : Int)
      = Ble.Handler.nil ∧
    subeventHci.handleLEMeta leMeta02Payload
      = ⟨subeventHci, [Action.handle 3 leMeta02Payload], none⟩ ∧
    subeventHci.handleLEMeta leMeta0APayload
      = ⟨subeventHci, [Action.log (LogEntry.unsupportedLE leMeta0APayload)], none⟩ :=
  ⟨rfl, rfl, (handleLEMeta_redispatch subeventHci 0x02 [0x01, 0x00]).1 3 rfl,
    (handleLEMeta_redispatch subeventHci 0x0A [0x00]).2.1 rfl⟩

/-- C18: when handle `H` maps to the connection `c` and the payload decodes to
a disconnection-complete event for `H`, `handleDisconnectionComplete` returns
without panic, its only action is one `c.Disconnect()` (no log entry), and in
the connection table `H` is no longer a key while every other handle maps to
what it mapped to before; the rest of the state is unchanged. -/
theorem handleDisconnectionComplete_removes_handle
    (Unmarshal : List Byte → Option DisconnectionCompleteEvent) (h : hci) (b : List Byte)
    (H : Nat) (c : Conn) (hdec : Unmarshal b = some ⟨H⟩) (hc : h.conns H = some c) :
    (hci.handleDisconnectionComplete Unmarshal h b).fault = none ∧
    (hci.handleDisconnectionComplete Unmarshal h b).trace = [Action.disconnect c] ∧
    (hci.handleDisconnectionComplete Unmarshal h b).state.conns H = none ∧
    (∀ H2, H2 ≠ H →
      (hci.handleDisconnectionComplete Unmarshal h b).state.conns H2 = h.conns H2) ∧
    (hci.handleDisconnectionComplete Unmarshal h b).state
      = { h with conns := (hci.handleDisconnectionComplete Unmarshal h b).state.conns } := by
  rw [handleDisconnectionComplete_present Unmarshal h b H c hdec hc]
  refine ⟨rfl, rfl, ?_, ?_, rfl⟩
  · simp [mapDelete]
  · intro H2 hH2
    simp [mapDelete, hH2]

/-- C18, witness: handle `0x0040` maps to connection 0; its disconnection tears
connection 0 down and empties the entry. -/
theorem handleDisconnectionComplete_removes_handle_witness :
    sampleDisconnectionComplete disconnect0040Payload = some ⟨0x0040⟩ ∧
    connected0040Hci.conns 0x0040 = some ⟨0, ⟨0x0040⟩⟩ ∧
    (hci.handleDisconnectionComplete sampleDisconnectionComplete connected0040Hci
      disconnect0040Payload).trace = [Action.disconnect ⟨0, ⟨0x0040⟩⟩] ∧
    (hci.handleDisconnectionComplete sampleDisconnectionComplete connected0040Hci
      disconnect0040Payload).state.conns 0x0040 = none :=
  have w := handleDisconnectionComplete_removes_handle sampleDisconnectionComplete
    connected0040Hci disconnect0040Payload 0x0040 ⟨0, ⟨0x0040⟩⟩ rfl rfl
  ⟨rfl, rfl, w.2.1, w.2.2.1⟩

/-- C19: `Handler` and `dispatch` do not agree on a key whose value is nil.
After `SetHandler(C, nil)`, `Handler(C)` returns nil, yet `dispatch` of a
packet `b` of length at least 2 with `b[0] = C` finds the key, calls `Handle`
on the nil value and panics: no handler is started and no unsupported entry is
logged.  (`handleLEMeta`, which tests `Handler(code) != nil`, logs such a code
as unsupported.) -/
theorem dispatch_after_removal_panics (d : dispatcher) (C : Int) (b : List Byte)
    (c l : Byte) (h0 : b[0]? = some c) (h1 : b[1]? = some l) (hC : (c.val : Int) = C) :
    (d.SetHandler C Ble.Handler.nil).1.Handler C = Ble.Handler.nil ∧
    ((d.SetHandler C Ble.Handler.nil).1.dispatch b).fault = some Panic.nilDereference ∧
    ((d.SetHandler C Ble.Handler.nil).1.dispatch b).trace.filter Action.isInvocation = [] ∧
    ((d.SetHandler C Ble.Handler.nil).1.dispatch b).trace.filter Action.isUnsupportedNotice
      = [] := by
  match b, h0, h1 with
  | x :: y :: payload, h0, h1 =>
    simp only [List.getElem?_cons_zero, List.getElem?_cons_succ, Option.some.injEq] at h0 h1
    subst h0 h1
    refine ⟨?_, ?_, ?_, ?_⟩
    · simp [dispatcher.SetHandler, dispatcher.Handler, mapSet]
    · simp [dispatcher.dispatch, dispatcher.SetHandler, mapSet, hC]
    · by_cases hne : y.val = payload.length <;>
        simp [dispatcher.dispatch, dispatcher.SetHandler, mapSet, hC, hne, List.filter,
          Action.isInvocation]
    · by_cases hne : y.val = payload.length <;>
        simp [dispatcher.dispatch, dispatcher.SetHandler, mapSet, hC, hne, List.filter,
          Action.isUnsupportedNotice]

/-- C19, witness: handler 7 installed for `0x0E`, removed with
`SetHandler(0x0E, nil)`, then a well-formed packet for `0x0E` dispatched. -/
theorem dispatch_after_removal_panics_witness :
    wellFormedPacket[0]? = some 0x0E ∧ wellFormedPacket[1]? = some 0x04 ∧
    (((0x0E : Byte).val : Int) = 0x0E) ∧
    removedHandlerDispatcher.Handler 0x0E = Ble.Handler.nil ∧
    removedHandlerDispatcher.dispatch wellFormedPacket
      = ⟨removedHandlerDispatcher, [], some Panic.nilDereference⟩ ∧
    (removedHandlerDispatcher.dispatch wellFormedPacket).fault
      = some Panic.nilDereference :=
  have w := dispatch_after_removal_panics oneHandlerDispatcher 0x0E wellFormedPacket
    0x0E 0x04 rfl rfl rfl
  ⟨rfl, rfl, rfl, w.1, rfl, w.2.1⟩

/-- The inner loop appends `n` calls of `Free` on `c` to the trace. -/
theorem freeLoop_eq (c : Conn) (n : Nat) (tr : List Action) :
    freeLoop c n tr = tr ++ List.replicate n (Action.txFree c) := by
  induction n generalizing tr with
  | zero => simp [freeLoop]
  | succ n ih => simp [freeLoop, ih, List.replicate_succ]

/-- The outer loop of `handleNumberOfCompletedPackets`, started at the index
`pre.length` of the event with the pairs `pre ++ rest`, with `rest.length`
iterations to go: it frees the credits of the pairs of `rest` up to the first
whose handle is not a key of the connection table, and returns. -/
theorem completedPacketsLoop_eq (h : hci) (n0 : Nat) (pre rest : List (Nat × Nat))
    (tr : List Action) :
    hci.completedPacketsLoop h
        ⟨n0, (pre ++ rest).map Prod.fst, (pre ++ rest).map Prod.snd⟩
        rest.length pre.length tr
      = ⟨h, tr ++ (rest.takeWhile (fun p => (h.conns p.1).isSome)).flatMap (pairFrees h),
          none⟩ := by
  induction rest generalizing pre tr with
  | nil => simp [hci.completedPacketsLoop]
  | cons p rest ih =>
    have hfst : ((pre ++ p :: rest).map Prod.fst).get? pre.length = some p.1 := by
      rw [List.get?_eq_getElem?, List.getElem?_map,
        List.getElem?_append_right (Nat.le_refl _)]
      simp
    have hsnd : ((pre ++ p :: rest).map Prod.snd).get? pre.length = some p.2 := by
      rw [List.get?_eq_getElem?, List.getElem?_map,
        List.getElem?_append_right (Nat.le_refl _)]
      simp
    have hpre : pre ++ p :: rest = (pre ++ [p]) ++ rest := by simp
    have hlen : pre.length + 1 = (pre ++ [p]).length := by simp
    rw [List.length_cons, hci.completedPacketsLoop]
    simp only [hfst, hsnd]
    cases hc : h.conns p.1 with
    | none => simp [List.takeWhile_cons, hc]
    | some c =>
      simp only []
      rw [hpre, hlen, ih (pre ++ [p]) (freeLoop c p.2 tr), freeLoop_eq]
      simp [List.takeWhile_cons, hc, List.flatMap_cons, pairFrees]

/-- The outcome of `handleNumberOfCompletedPackets` on an event that carries
the pairs `pairs`. -/
theorem handleNumberOfCompletedPackets_eq
    (Unmarshal : List Byte → Option NumberOfCompletedPacketsEvent) (h : hci) (b : List Byte)
    (pairs : List (Nat × Nat)) (hdec : Unmarshal b = some (completedPacketsEvent pairs)) :
    hci.handleNumberOfCompletedPackets Unmarshal h b
      = ⟨h, (pairs.takeWhile (fun p => (h.conns p.1).isSome)).flatMap (pairFrees h),
          none⟩ := by
  have hloop := completedPacketsLoop_eq h pairs.length [] pairs []
  simp only [List.nil_append, List.length_nil] at hloop
  simp only [hci.handleNumberOfCompletedPackets, hdec, completedPacketsEvent]
  exact hloop

/-- The number of `Free` operations on `c` among those of the pairs `pairs` is
the sum of the counts of the pairs whose handle maps to `c`. -/
theorem count_pairFrees (h : hci) (c : Conn) (pairs : List (Nat × Nat)) :
    (pairs.flatMap (pairFrees h)).count (Action.txFree c)
      = ((pairs.filter (fun p => decide (h.conns p.1 = some c))).map Prod.snd).sum := by
  induction pairs with
  | nil => simp
  | cons p pairs ih =>
    rw [List.flatMap_cons, List.count_append, ih, List.filter_cons]
    cases hc : h.conns p.1 with
    | none => simp [pairFrees, hc]
    | some c2 =>
      by_cases hcc : c2 = c
      · simp [pairFrees, hc, hcc, List.count_replicate]
      · simp [pairFrees, hc, hcc, List.count_replicate]

/-- The longest prefix of present handles of `pre ++ x :: post` is `pre` when
every handle of `pre` is present and that of `x` is not. -/
theorem takeWhile_present_prefix (h : hci) (pre post : List (Nat × Nat)) (x : Nat × Nat)
    (hpre : ∀ p ∈ pre, (h.conns p.1).isSome = true) (hx : h.conns x.1 = none) :
    (pre ++ x :: post).takeWhile (fun p => (h.conns p.1).isSome) = pre := by
  induction pre with
  | nil => simp [List.takeWhile_cons, hx]
  | cons q pre ih =>
    have hq : (h.conns q.1).isSome = true := hpre q (List.mem_cons_self _ _)
    have ih2 := ih (fun p hp => hpre p (List.mem_cons_of_mem _ hp))
    simp [List.takeWhile_cons, hq, ih2]

/-- C13: when the payload decodes to a number-of-completed-packets event with
the pairs `pairs` and every handle among them is a key of the connection
table, `handleNumberOfCompletedPackets` returns without panic, leaves the
connection table (and the whole state) as it was, and performs, pair after
pair, exactly `count` calls of `Free` on the transmit pool of the connection
the handle maps to, and nothing else: each connection receives the sum of the
counts of the pairs whose handle maps to it, and a connection that no pair
names receives none. -/
theorem completed_packets_all_present
    (Unmarshal : List Byte → Option NumberOfCompletedPacketsEvent) (h : hci) (b : List Byte)
    (pairs : List (Nat × Nat)) (hdec : Unmarshal b = some (completedPacketsEvent pairs))
    (hall : ∀ p ∈ pairs, (h.conns p.1).isSome = true) :
    (hci.handleNumberOfCompletedPackets Unmarshal h b).fault = none ∧
    (hci.handleNumberOfCompletedPackets Unmarshal h b).state = h ∧
    (hci.handleNumberOfCompletedPackets Unmarshal h b).state.conns = h.conns ∧
    (hci.handleNumberOfCompletedPackets Unmarshal h b).trace
      = pairs.flatMap (pairFrees h) ∧
    (∀ p ∈ pairs, ∃ c, h.conns p.1 = some c ∧
      pairFrees h p = List.replicate p.2 (Action.txFree c)) ∧
    (∀ c, (hci.handleNumberOfCompletedPackets Unmarshal h b).trace.count (Action.txFree c)
      = ((pairs.filter (fun p => decide (h.conns p.1 = some c))).map Prod.snd).sum) ∧
    (∀ c, (∀ p ∈ pairs, h.conns p.1 ≠ some c) →
      (hci.handleNumberOfCompletedPackets Unmarshal h b).trace.count (Action.txFree c)
        = 0) := by
  have htw : pairs.takeWhile (fun p => (h.conns p.1).isSome) = pairs :=
    List.takeWhile_eq_self_iff.mpr hall
  rw [handleNumberOfCompletedPackets_eq Unmarshal h b pairs hdec, htw]
  refine ⟨rfl, rfl, rfl, rfl, ?_, ?_, ?_⟩
  · intro p hp
    have hsome := hall p hp
    cases hc : h.conns p.1 with
    | none => simp [hc] at hsome
    | some c => exact ⟨c, rfl, by simp [pairFrees, hc]⟩
  · intro c
    exact count_pairFrees h c pairs
  · intro c hc
    have hfil : pairs.filter (fun p => decide (h.conns p.1 = some c)) = [] := by
      rw [List.filter_eq_nil_iff]
      intro p hp
      simpa using hc p hp
    show (pairs.flatMap (pairFrees h)).count (Action.txFree c) = 0
    rw [count_pairFrees, hfil]
    rfl

/-- C13, witness: handle `0x0040` maps to connection 0; the pairs `(0x0040, 2)`
and `(0x0040, 1)` free three buffers of connection 0. -/
theorem completed_packets_all_present_witness :
    sampleNumberOfCompletedPackets completedTwoPairsPayload
      = some (completedPacketsEvent [(0x0040, 2), (0x0040, 1)]) ∧
    (∀ p ∈ [((0x0040 : Nat), (2 : Nat)), (0x0040, 1)],
      (connected0040Hci.conns p.1).isSome = true) ∧
    (hci.handleNumberOfCompletedPackets sampleNumberOfCompletedPackets connected0040Hci
      completedTwoPairsPayload).trace
      = [Action.txFree ⟨0, ⟨0x0040⟩⟩, Action.txFree ⟨0, ⟨0x0040⟩⟩,
          Action.txFree ⟨0, ⟨0x0040⟩⟩] ∧
    (hci.handleNumberOfCompletedPackets sampleNumberOfCompletedPackets connected0040Hci
      completedTwoPairsPayload).state.conns = connected0040Hci.conns :=
  have hall : ∀ p ∈ [((0x0040 : Nat), (2 : Nat)), (0x0040, 1)],
      (connected0040Hci.conns p.1).isSome = true := by decide
  have w := completed_packets_all_present sampleNumberOfCompletedPackets connected0040Hci
    completedTwoPairsPayload [(0x0040, 2), (0x0040, 1)] rfl hall
  ⟨rfl, hall, w.2.2.2.1, w.2.2.1⟩

/-- C14: `handleNumberOfCompletedPackets` processes exactly the longest prefix
of the pairs of the event whose handles are all keys of the connection table.
When the pairs are `pre`, then a pair `(hm, km)` whose handle is not a key,
then `post`, with every handle of `pre` a key: the handler returns without
panic and with the state unchanged after the `Free` operations of the pairs of
`pre`, so the pair `(hm, km)` and the pairs of `post`, also those that name a
live connection, free nothing. -/
theorem completed_packets_stop_at_missing
    (Unmarshal : List Byte → Option NumberOfCompletedPacketsEvent) (h : hci)
    (b : List Byte) :
    (∀ pairs, Unmarshal b = some (completedPacketsEvent pairs) →
      hci.handleNumberOfCompletedPackets Unmarshal h b
        = ⟨h, (pairs.takeWhile (fun p => (h.conns p.1).isSome)).flatMap (pairFrees h),
            none⟩) ∧
    (∀ (pre post : List (Nat × Nat)) (hm km : Nat),
      Unmarshal b = some (completedPacketsEvent (pre ++ (hm, km) :: post)) →
      (∀ p ∈ pre, (h.conns p.1).isSome = true) → h.conns hm = none →
      hci.handleNumberOfCompletedPackets Unmarshal h b
          = ⟨h, pre.flatMap (pairFrees h), none⟩ ∧
      (∀ c, (hci.handleNumberOfCompletedPackets Unmarshal h b).trace.count (Action.txFree c)
        = ((pre.filter (fun p => decide (h.conns p.1 = some c))).map Prod.snd).sum)) := by
  constructor
  · intro pairs hdec
    exact handleNumberOfCompletedPackets_eq Unmarshal h b pairs hdec
  · intro pre post hm km hdec hpre hmiss
    have hres : hci.handleNumberOfCompletedPackets Unmarshal h b
        = ⟨h, pre.flatMap (pairFrees h), none⟩ := by
      rw [handleNumberOfCompletedPackets_eq Unmarshal h b _ hdec,
        takeWhile_present_prefix h pre post (hm, km) hpre hmiss]
    refine ⟨hres, ?_⟩
    intro c
    rw [hres]
    exact count_pairFrees h c pre

/-- C14, witness: handle `0x0040` maps to connection 0 and `0x0041` is not a
key; of the pairs `(0x0040, 2)`, `(0x0041, 3)`, `(0x0040, 1)` only the first
frees buffers. -/
theorem completed_packets_stop_at_missing_witness :
    sampleNumberOfCompletedPackets completedThreePairsPayload
      = some (completedPacketsEvent ([(0x0040, 2)] ++ (0x0041, 3) :: [(0x0040, 1)])) ∧
    (∀ p ∈ [((0x0040 : Nat), (2 : Nat))], (connected0040Hci.conns p.1).isSome = true) ∧
    connected0040Hci.conns 0x0041 = none ∧
    hci.handleNumberOfCompletedPackets sampleNumberOfCompletedPackets connected0040Hci
      completedThreePairsPayload
      = ⟨connected0040Hci, [Action.txFree ⟨0, ⟨0x0040⟩⟩, Action.txFree ⟨0, ⟨0x0040⟩⟩],
          none⟩ :=
  have hpre : ∀ p ∈ [((0x0040 : Nat), (2 : Nat))],
      (connected0040Hci.conns p.1).isSome = true := by decide
  have w := (completed_packets_stop_at_missing sampleNumberOfCompletedPackets
    connected0040Hci completedThreePairsPayload).2 [(0x0040, 2)] [(0x0040, 1)] 0x0041 3
    rfl hpre rfl
  ⟨rfl, hpre, rfl, w.1⟩

/-- Reading a hexadecimal digit back gives its value. -/
theorem hexValue_hexDigit : ∀ n, n < 16 → hexValue (hexDigit n) = n := by decide

/-- Every hexadecimal digit is one of the sixteen upper-case digits. -/
theorem hexDigit_mem_upperHexDigits : ∀ n, n < 16 → hexDigit n ∈ upperHexDigits := by
  decide

/-- Reading the two digits of a byte back gives the byte. -/
theorem parseHex02X_hex02X (x : Byte) :
    parseHex02X (hexDigit (x.val / 16)) (hexDigit (x.val % 16)) = x := by
  have hx := x.isLt
  have h1 : x.val / 16 < 16 := by omega
  have h2 : x.val % 16 < 16 := by omega
  apply Fin.ext
  simp only [parseHex02X, hexValue_hexDigit _ h1, hexValue_hexDigit _ h2, Fin.ofNat]
  omega

/-- Parsing the rendering of an address gives the address back. -/
theorem parseAddress_formatAddress (a : Fin 6 → Byte) :
    parseAddress (formatAddress a) = some a := by
  simp only [parseAddress, formatAddress, hex02X, List.cons_append, List.nil_append,
    and_self, if_true, parseHex02X_hex02X]
  congr 1
  funext i
  fin_cases i <;> rfl

/-- An index within bounds reads the element that `getD` reads. -/
theorem get?_eq_some_getD {α : Type} (l : List α) (i : Nat) (d : α) (hi : i < l.length) :
    l.get? i = some (l.getD i d) := by
  simp [List.getD_eq_getElem?_getD, List.get?_eq_getElem?, List.getElem?_eq_getElem hi]

/-- The loop of `handleLEAdvertisingReport`, with `n` iterations to go from the
index `i`, when the five arrays of the event hold at least `i + n` entries: it
logs the records of the indices `i`, ..., `i + n - 1`, in that order. -/
theorem advertisingReportLoop_eq (h : hci) (e : LEAdvertisingReportEvent) (n i : Nat)
    (tr : List Action)
    (h1 : i + n ≤ e.EventType.length) (h2 : i + n ≤ e.AddressType.length)
    (h3 : i + n ≤ e.Address.length) (h4 : i + n ≤ e.RSSI.length)
    (h5 : i + n ≤ e.Data.length) :
    hci.advertisingReportLoop h e n i tr
      = ⟨h, tr ++ (List.range' i n).map (reportRecord e), none⟩ := by
  induction n generalizing i tr with
  | zero => simp [hci.advertisingReportLoop]
  | succ n ih =>
    rw [hci.advertisingReportLoop]
    rw [get?_eq_some_getD e.EventType i 0 (by omega),
      get?_eq_some_getD e.AddressType i 0 (by omega),
      get?_eq_some_getD e.Address i (fun _ => 0) (by omega),
      get?_eq_some_getD e.RSSI i 0 (by omega),
      get?_eq_some_getD e.Data i [] (by omega)]
    simp only []
    rw [ih (i + 1) _ (by omega) (by omega) (by omega) (by omega) (by omega)]
    simp [List.range'_succ, reportRecord]

/-- C16: the address formatter of `handleLEAdvertisingReport` renders an
address `a` as 17 characters: the two upper-case hexadecimal digits of `a[5]`,
a colon, those of `a[4]`, and so on down to those of `a[0]`.  Each group of two
digits reads back as the byte it renders, parsing the rendering recovers `a`,
and so the rendering is injective.  For an event whose five arrays hold at
least `NumReports` entries the handler returns without panic, with the state
unchanged, after logging exactly `NumReports` records: the record of index 0,
then that of index 1, and so on. -/
theorem formatAddress_and_report_order (a : Fin 6 → Byte) :
    (formatAddress a).data
      = [hexDigit ((a 5).val / 16), hexDigit ((a 5).val % 16), ':',
         hexDigit ((a 4).val / 16), hexDigit ((a 4).val % 16), ':',
         hexDigit ((a 3).val / 16), hexDigit ((a 3).val % 16), ':',
         hexDigit ((a 2).val / 16), hexDigit ((a 2).val % 16), ':',
         hexDigit ((a 1).val / 16), hexDigit ((a 1).val % 16), ':',
         hexDigit ((a 0).val / 16), hexDigit ((a 0).val % 16)] ∧
    (formatAddress a).length = 17 ∧
    (∀ x : Byte, hexDigit (x.val / 16) ∈ upperHexDigits ∧
      hexDigit (x.val % 16) ∈ upperHexDigits ∧
      16 * hexValue (hexDigit (x.val / 16)) + hexValue (hexDigit (x.val % 16)) = x.val) ∧
    parseAddress (formatAddress a) = some a ∧
    Function.Injective formatAddress ∧
    (∀ (Unmarshal : List Byte → Option LEAdvertisingReportEvent) (h : hci) (p : List Byte)
      (e : LEAdvertisingReportEvent), Unmarshal p = some e →
      e.NumReports ≤ e.EventType.length → e.NumReports ≤ e.AddressType.length →
      e.NumReports ≤ e.Address.length → e.NumReports ≤ e.RSSI.length →
      e.NumReports ≤ e.Data.length →
      hci.handleLEAdvertisingReport Unmarshal h p
          = ⟨h, (List.range e.NumReports).map (reportRecord e), none⟩ ∧
      (hci.handleLEAdvertisingReport Unmarshal h p).trace.length = e.NumReports) := by
  refine ⟨rfl, rfl, ?_, parseAddress_formatAddress a, ?_, ?_⟩
  · intro x
    have hx := x.isLt
    have h1 : x.val / 16 < 16 := by omega
    have h2 : x.val % 16 < 16 := by omega
    refine ⟨hexDigit_mem_upperHexDigits _ h1, hexDigit_mem_upperHexDigits _ h2, ?_⟩
    rw [hexValue_hexDigit _ h1, hexValue_hexDigit _ h2]
    omega
  · intro a1 a2 heq
    have hp := congrArg parseAddress heq
    rw [parseAddress_formatAddress, parseAddress_formatAddress] at hp
    exact Option.some.inj hp
  · intro Unmarshal h p e hdec h1 h2 h3 h4 h5
    have hres : hci.handleLEAdvertisingReport Unmarshal h p
        = ⟨h, (List.range e.NumReports).map (reportRecord e), none⟩ := by
      simp only [hci.handleLEAdvertisingReport, hdec]
      rw [advertisingReportLoop_eq h e e.NumReports 0 [] (by omega) (by omega) (by omega)
        (by omega) (by omega), List.range_eq_range']
      simp
    refine ⟨hres, ?_⟩
    rw [hres]
    simp

/-- C16, witness: the address with bytes `01 23 45 67 89 AB` renders as
`AB:89:67:45:23:01`, and an event with two reports logs two records, the
report of index 0 first. -/
theorem formatAddress_and_report_order_witness :
    sampleLEAdvertisingReports twoReportsPayload = some twoReportsEvent ∧
    twoReportsEvent.NumReports ≤ twoReportsEvent.EventType.length ∧
    twoReportsEvent.NumReports ≤ twoReportsEvent.AddressType.length ∧
    twoReportsEvent.NumReports ≤ twoReportsEvent.Address.length ∧
    twoReportsEvent.NumReports ≤ twoReportsEvent.RSSI.length ∧
    twoReportsEvent.NumReports ≤ twoReportsEvent.Data.length ∧
    formatAddress ![0x01, 0x23, 0x45, 0x67, 0x89, 0xAB] = "AB:89:67:45:23:01" ∧
    parseAddress "AB:89:67:45:23:01" = some ![0x01, 0x23, 0x45, 0x67, 0x89, 0xAB] ∧
    hci.handleLEAdvertisingReport sampleLEAdvertisingReports emptyHci twoReportsPayload
      = ⟨emptyHci,
          [Action.log (LogEntry.advertisingReport 0 1 "AB:89:67:45:23:01" (-56) [0x02, 0x01]),
           Action.log (LogEntry.advertisingReport 3 0 "0F:0E:0D:0C:0B:0A" 20 [])],
          none⟩ :=
  have w := formatAddress_and_report_order ![0x01, 0x23, 0x45, 0x67, 0x89, 0xAB]
  have hfmt : formatAddress ![0x01, 0x23, 0x45, 0x67, 0x89, 0xAB] = "AB:89:67:45:23:01" := by
    decide
  have htr : (List.range twoReportsEvent.NumReports).map (reportRecord twoReportsEvent)
      = [Action.log (LogEntry.advertisingReport 0 1 "AB:89:67:45:23:01" (-56) [0x02, 0x01]),
         Action.log (LogEntry.advertisingReport 3 0 "0F:0E:0D:0C:0B:0A" 20 [])] := by
    decide
  ⟨rfl, by decide, by decide, by decide, by decide, by decide, hfmt,
    hfmt ▸ w.2.2.2.1,
    htr ▸ (w.2.2.2.2.2 sampleLEAdvertisingReports emptyHci twoReportsPayload twoReportsEvent
      rfl (by decide) (by decide) (by decide) (by decide) (by decide)).1⟩

end Ble
